import Mathlib

/-!
Verification of the cart / inventory / purchase core of the e-commerce
backend.  The data model and the operations below are shallow embeddings of
the Mongoose models (`src/models/Cart.js`, `src/models/Product.js`,
`src/models/Ticket.js`), the DAOs (`src/dao/CartDAO.js`,
`src/dao/ProductDAO.js`, `TicketDAO`) and the repositories
(`CartRepository`, `ProductRepository`, `TicketRepository`).

Identifiers (Mongo ObjectIds) are modelled as `Nat`; monetary values and
stock counts as `Int` (JS numbers, and `$inc` can drive stock negative);
quantities as `Nat`.  The database is a `State` holding the product and
cart collections; each DAO/repository method becomes a pure function on
`State`, with `Except CartError` for methods that `throw`.
-/

/-- Cart status enum of the cart schema: active, completed, cancelled. -/
inductive CartStatus where
  | active
  | completed
  | cancelled
deriving DecidableEq, Repr

/-- Product document: id, title, price, stock (other catalog fields are
irrelevant to the cart pipeline). -/
structure Product where
  id : Nat
  title : String
  price : Int
  stock : Int
deriving DecidableEq, Repr

/-- Cart line item: product reference, quantity, unit price snapshot. -/
structure LineItem where
  product : Nat
  quantity : Nat
  price : Int
deriving DecidableEq, Repr

/-- Cart document: owner, embedded line items, stored total, status. -/
structure Cart where
  id : Nat
  user : Nat
  products : List LineItem
  totalPrice : Int
  status : CartStatus
deriving DecidableEq, Repr

/-- Database state: the products collection, the carts collection, and a
fresh-id counter used when a new cart document is created. -/
structure State where
  products : List Product
  carts : List Cart
  nextCartId : Nat
deriving DecidableEq, Repr

/-- Errors thrown by the repository layer; one constructor per distinct
`throw new Error(...)` message, plus the JS TypeError that a dangling
populated product reference would raise inside `purchase`. -/
inductive CartError where
  | productNotFound
  | insufficientStock
  | insufficientStockTotal
  | cartNotFound
  | productNotInCart
  | typeErrorNullProduct
deriving DecidableEq, Repr

/-- `Product.findById`: first document with the given id. -/
def findProduct (ps : List Product) (pid : Nat) : Option Product :=
  ps.find? (fun p => p.id == pid)

/-- Update the first product document with the given id (Mongo
`findByIdAndUpdate` touches exactly one document). -/
def modifyProduct (ps : List Product) (pid : Nat) (f : Product → Product) :
    List Product :=
  match ps with
  | [] => []
  | p :: rest =>
    if p.id == pid then f p :: rest else p :: modifyProduct rest pid f

/-- `ProductDAO.incrementStock`: `$inc { stock: quantity }`, unconditional. -/
def ProductDAO.incrementStock (ps : List Product) (pid : Nat) (quantity : Int) :
    List Product :=
  modifyProduct ps pid (fun p => { p with stock := p.stock + quantity })

/-- `ProductDAO.decrementStock`: `$inc { stock: -quantity }`, unconditional:
no stock check is performed. -/
def ProductDAO.decrementStock (ps : List Product) (pid : Nat) (quantity : Int) :
    List Product :=
  modifyProduct ps pid (fun p => { p with stock := p.stock - quantity })

/-- `ProductRepository.hasStock`: the product exists and its stock is at
least the requested quantity. -/
def ProductRepository.hasStock (ps : List Product) (pid : Nat) (quantity : Int) :
    Bool :=
  match findProduct ps pid with
  | some p => quantity ≤ p.stock
  | none => false

/-- `Cart.findById`: first cart document with the given id. -/
def findCart (cs : List Cart) (cid : Nat) : Option Cart :=
  cs.find? (fun c => c.id == cid)

/-- Persist an updated cart document over the first cart with the given id
(the single-document write of `cart.save()` / `findByIdAndUpdate`). -/
def replaceCart (cs : List Cart) (cid : Nat) (c : Cart) : List Cart :=
  match cs with
  | [] => []
  | c0 :: rest =>
    if c0.id == cid then c :: rest else c0 :: replaceCart rest cid c

/-- `CartDAO.findActiveByUser`: `findOne { user, status: "active" }`. -/
def findActiveCart (cs : List Cart) (uid : Nat) : Option Cart :=
  cs.find? (fun c => c.user == uid && c.status == CartStatus.active)

/-- `cart.products.find(item => item.product == productId)`. -/
def findLine (items : List LineItem) (pid : Nat) : Option LineItem :=
  items.find? (fun it => it.product == pid)

/-- The JS string values compared with `===` in the repository layer:
`ObjectId.toString()` (and the product-id argument passed in) is the bare
hex id, while `toString()` on a hydrated (populated) document yields the
document's object-inspection form, which is never a bare hex id — the two
shapes are distinct strings for every pair of ids. -/
inductive JsString where
  | idStr (id : Nat)
  | docStr (id : Nat)
deriving DecidableEq, BEq, Repr

/-- The existing-line lookup of `CartRepository.addProduct`:
`cart.products?.find(item => item.product?.toString() === productId)`.
The cart comes from `CartDAO.findActiveByUser`, which populates
`products.product`, so `item.product` here is the hydrated product
document (or null when the reference dangles, in which case `?.` yields
undefined and the strict comparison is false): the comparison pits a
document string against the bare id string. -/
def findLinePopulated (ps : List Product) (items : List LineItem) (pid : Nat) :
    Option LineItem :=
  items.find? (fun it =>
    match findProduct ps it.product with
    | some doc => JsString.docStr doc.id == JsString.idStr pid
    | none => false)

/-- `existingItem.quantity += quantity`: bump the first matching line. -/
def bumpLine (items : List LineItem) (pid : Nat) (quantity : Nat) :
    List LineItem :=
  match items with
  | [] => []
  | it :: rest =>
    if it.product == pid then { it with quantity := it.quantity + quantity } :: rest
    else it :: bumpLine rest pid quantity

/-- `item.quantity = quantity`: overwrite the first matching line. -/
def setLineQuantity (items : List LineItem) (pid : Nat) (quantity : Nat) :
    List LineItem :=
  match items with
  | [] => []
  | it :: rest =>
    if it.product == pid then { it with quantity := quantity } :: rest
    else it :: setLineQuantity rest pid quantity

/-- `cart.products.reduce((total, item) => total + item.price * item.quantity, 0)`. -/
def calcTotal (items : List LineItem) : Int :=
  items.foldl (fun total it => total + it.price * (it.quantity : Int)) 0

/-- `CartDAO.addProduct(cartId, productId, quantity, price)`: upsert the
line (bump quantity if present, else push a new line with the price
snapshot), then recompute `totalPrice` and save. -/
def CartDAO.addProduct (s : State) (cartId productId : Nat) (quantity : Nat)
    (price : Int) : State :=
  match findCart s.carts cartId with
  | none => s
  | some cart =>
    let items :=
      match findLine cart.products productId with
      | some _ => bumpLine cart.products productId quantity
      | none => cart.products ++ [{ product := productId, quantity := quantity, price := price }]
    let cart1 := { cart with products := items, totalPrice := calcTotal items }
    { s with carts := replaceCart s.carts cartId cart1 }

/-- `CartDAO.updateProductQuantity(cartId, productId, quantity)`: overwrite
the line quantity when the line exists, recompute `totalPrice`, save;
otherwise no write happens. -/
def CartDAO.updateProductQuantity (s : State) (cartId productId : Nat)
    (quantity : Nat) : State :=
  match findCart s.carts cartId with
  | none => s
  | some cart =>
    match findLine cart.products productId with
    | none => s
    | some _ =>
      let items := setLineQuantity cart.products productId quantity
      let cart1 := { cart with products := items, totalPrice := calcTotal items }
      { s with carts := replaceCart s.carts cartId cart1 }

/-- `CartDAO.removeProduct(cartId, productId)`: filter out every line for
the product, recompute `totalPrice`, save. -/
def CartDAO.removeProduct (s : State) (cartId productId : Nat) : State :=
  match findCart s.carts cartId with
  | none => s
  | some cart =>
    let items := cart.products.filter (fun it => !(it.product == productId))
    let cart1 := { cart with products := items, totalPrice := calcTotal items }
    { s with carts := replaceCart s.carts cartId cart1 }

/-- `CartDAO.clearCart(cartId)`: `findByIdAndUpdate { products: [], totalPrice: 0 }`. -/
def CartDAO.clearCart (s : State) (cartId : Nat) : State :=
  match findCart s.carts cartId with
  | none => s
  | some cart =>
    { s with carts := replaceCart s.carts cartId { cart with products := [], totalPrice := 0 } }

/-- `CartDAO.updateStatus(cartId, status)`: `findByIdAndUpdate { status }`. -/
def CartDAO.updateStatus (s : State) (cartId : Nat) (status : CartStatus) : State :=
  match findCart s.carts cartId with
  | none => s
  | some cart =>
    { s with carts := replaceCart s.carts cartId { cart with status := status } }

/-- `CartRepository.addProduct(userId, productId, quantity)`: look up the
product, pre-check stock for the requested quantity, get-or-create the
active cart, look for an existing line on the populated cart (the
document-vs-id comparison of `item.product?.toString() === productId`
never matches, so the combined-quantity re-check branch below is dead
code), decrement stock by the requested quantity, and upsert the line
with the current product price as snapshot. -/
def CartRepository.addProduct (s : State) (userId productId : Nat)
    (quantity : Nat) : Except CartError State :=
  match findProduct s.products productId with
  | none => Except.error CartError.productNotFound
  | some product =>
    if ProductRepository.hasStock s.products productId (quantity : Int) then
      let fresh : Cart :=
        { id := s.nextCartId, user := userId, products := [], totalPrice := 0,
          status := CartStatus.active }
      let found := findActiveCart s.carts userId
      let cart := found.getD fresh
      let s1 :=
        match found with
        | some _ => s
        | none => { s with carts := s.carts ++ [fresh], nextCartId := s.nextCartId + 1 }
      match findLinePopulated s.products cart.products productId with
      | some item =>
        if ProductRepository.hasStock s1.products productId
            ((item.quantity : Int) + (quantity : Int)) then
          Except.ok (CartDAO.addProduct
            { s1 with products := ProductDAO.decrementStock s1.products productId (quantity : Int) }
            cart.id productId quantity product.price)
        else Except.error CartError.insufficientStockTotal
      | none =>
        Except.ok (CartDAO.addProduct
          { s1 with products := ProductDAO.decrementStock s1.products productId (quantity : Int) }
          cart.id productId quantity product.price)
    else Except.error CartError.insufficientStock

/-- `CartRepository.updateProductQuantity(cartId, productId, newQuantity)`:
compute the difference with the current line quantity, check-and-decrement
stock when increasing, return stock when decreasing, then persist the new
quantity with a recomputed total. -/
def CartRepository.updateProductQuantity (s : State) (cartId productId : Nat)
    (newQuantity : Nat) : Except CartError State :=
  match findCart s.carts cartId with
  | none => Except.error CartError.cartNotFound
  | some cart =>
    match findLine cart.products productId with
    | none => Except.error CartError.productNotInCart
    | some item =>
      let difference : Int := (newQuantity : Int) - (item.quantity : Int)
      if 0 < difference then
        if ProductRepository.hasStock s.products productId difference then
          Except.ok (CartDAO.updateProductQuantity
            { s with products := ProductDAO.decrementStock s.products productId difference }
            cartId productId newQuantity)
        else Except.error CartError.insufficientStock
      else if difference < 0 then
        Except.ok (CartDAO.updateProductQuantity
          { s with products := ProductDAO.incrementStock s.products productId (-difference) }
          cartId productId newQuantity)
      else
        Except.ok (CartDAO.updateProductQuantity s cartId productId newQuantity)

/-- `CartRepository.removeProduct(cartId, productId)`: when a line for the
product exists, return its full quantity to stock; then delete the line
via the DAO (which recomputes the total).  No error is raised when the
line is absent. -/
def CartRepository.removeProduct (s : State) (cartId productId : Nat) :
    Except CartError State :=
  match findCart s.carts cartId with
  | none => Except.error CartError.cartNotFound
  | some cart =>
    let s1 :=
      match findLine cart.products productId with
      | some item =>
        { s with products := ProductDAO.incrementStock s.products productId (item.quantity : Int) }
      | none => s
    Except.ok (CartDAO.removeProduct s1 cartId productId)

/-- The for-of loop of `CartRepository.clearCart`: return the stock of
every line, left to right. -/
def returnAllStock (ps : List Product) : List LineItem → List Product
  | [] => ps
  | it :: rest =>
    returnAllStock (ProductDAO.incrementStock ps it.product (it.quantity : Int)) rest

/-- `CartRepository.clearCart(cartId)`: return the stock of every line,
then empty the cart via the DAO. -/
def CartRepository.clearCart (s : State) (cartId : Nat) : Except CartError State :=
  match findCart s.carts cartId with
  | none => Except.error CartError.cartNotFound
  | some cart =>
    Except.ok (CartDAO.clearCart { s with products := returnAllStock s.products cart.products } cartId)

/-- Entry of the `productsProcessed` list built by `purchase`. -/
structure ProcessedItem where
  product : Nat
  title : String
  quantity : Nat
  price : Int
  subtotal : Int
deriving DecidableEq, Repr

/-- Entry of the `productsNotProcessed` list built by `purchase`. -/
structure NotProcessedItem where
  product : Nat
  title : String
  requestedQuantity : Nat
  availableStock : Int
deriving DecidableEq, Repr

/-- Return value of `CartRepository.purchase`. -/
structure PurchaseResult where
  productsProcessed : List ProcessedItem
  productsNotProcessed : List NotProcessedItem
  totalAmount : Int
  cartId : Nat
deriving DecidableEq, Repr

/-- The line loop of `CartRepository.purchase`.  Stock comparisons read the
populated product documents, i.e. the stock values of the state `s0` at
load time; the increments for unfulfillable lines are applied to the live
state threaded through `s`.  A line whose product no longer resolves makes
the JS code dereference `null`. -/
def purchaseLoop (s0 : State) : List LineItem → State → List ProcessedItem →
    List NotProcessedItem →
    Except CartError (List ProcessedItem × List NotProcessedItem × State)
  | [], s, ps, ns => Except.ok (ps.reverse, ns.reverse, s)
  | item :: rest, s, ps, ns =>
    match findProduct s0.products item.product with
    | none => Except.error CartError.typeErrorNullProduct
    | some product =>
      if (item.quantity : Int) ≤ product.stock then
        purchaseLoop s0 rest s
          ({ product := product.id, title := product.title, quantity := item.quantity,
             price := item.price, subtotal := (item.quantity : Int) * item.price } :: ps)
          ns
      else
        purchaseLoop s0 rest
          { s with products := ProductDAO.incrementStock s.products product.id (item.quantity : Int) }
          ps
          ({ product := product.id, title := product.title,
             requestedQuantity := item.quantity, availableStock := product.stock } :: ns)

/-- `CartRepository.purchase(cartId)`: load the cart (the only check is
cart-not-found), partition the lines against load-time stock, sum the
subtotals of the processed lines, remove the unprocessed lines from the
cart (saving the document with its `totalPrice` field untouched) when any
exist, and set the status to completed exactly when every line was
processed. -/
def CartRepository.purchase (s : State) (cartId : Nat) :
    Except CartError (PurchaseResult × State) :=
  match findCart s.carts cartId with
  | none => Except.error CartError.cartNotFound
  | some cart =>
    match purchaseLoop s cart.products s [] [] with
    | Except.error e => Except.error e
    | Except.ok (processed, notProcessed, s1) =>
      let totalAmount := processed.foldl (fun acc p => acc + p.subtotal) 0
      let s2 :=
        if notProcessed.length > 0 then
          let kept := cart.products.filter
            (fun it => processed.any (fun p => p.product == it.product))
          let cart1 := { cart with products := kept }
          { s1 with carts := replaceCart s1.carts cartId cart1 }
        else s1
      let status := if notProcessed.length == 0 then CartStatus.completed else CartStatus.active
      let s3 := CartDAO.updateStatus s2 cartId status
      Except.ok ({ productsProcessed := processed, productsNotProcessed := notProcessed,
                   totalAmount := totalAmount, cartId := cartId }, s3)

/-- Ticket document (creation-relevant fields of the ticket schema). -/
structure Ticket where
  code : String
  purchase_datetime : Nat
  amount : Int
  purchaser : String
  cart : Nat
deriving DecidableEq, Repr

/-- The candidate format of `Ticket.generateUniqueCode`:
`TICKET-<base36 timestamp>-<random base36 suffix>`. -/
def ticketCodeFormat (timestamp random : String) : String :=
  "TICKET-" ++ timestamp ++ "-" ++ random

/-- `Ticket.generateUniqueCode`: generate a candidate from the timestamp
and the random suffix, check it against the stored codes, retry on
collision.  The stream of candidate pairs the nondeterministic generator
would produce is passed explicitly; an exhausted stream models the loop
never finding a fresh code. -/
def Ticket.generateUniqueCode (existingCodes : List String) :
    List (String × String) → Option String
  | [] => none
  | (timestamp, random) :: rest =>
    if ticketCodeFormat timestamp random ∈ existingCodes then
      Ticket.generateUniqueCode existingCodes rest
    else some (ticketCodeFormat timestamp random)

/-- JS whitespace test restricted to the ASCII characters the model uses. -/
def isJsSpace (c : Char) : Bool :=
  c == ' ' || c == '\t' || c == '\n' || c == '\r'

/-- The `trim: true` schema setter (String.prototype.trim). -/
def jsTrim (s : String) : String :=
  ⟨((s.data.dropWhile isJsSpace).reverse.dropWhile isJsSpace).reverse⟩

/-- The `lowercase: true` schema setter (String.prototype.toLowerCase),
ASCII model. -/
def jsToLower (s : String) : String :=
  ⟨s.data.map Char.toLower⟩

/-- The purchaser value actually stored by the ticket schema: the
`lowercase` and `trim` setters applied to the supplied email. -/
def normalizePurchaser (email : String) : String :=
  jsTrim (jsToLower email)

/-- Build the ticket document the schema persists from the creation input. -/
def mkTicket (code : String) (datetime : Nat) (amount : Int) (purchaser : String)
    (cartRef : Nat) : Ticket :=
  { code := code, purchase_datetime := datetime, amount := amount,
    purchaser := normalizePurchaser purchaser, cart := cartRef }

/-- `TicketRepository.create`: generate a unique code against the stored
codes, then persist the ticket carrying it. -/
def TicketRepository.create (tickets : List Ticket)
    (candidates : List (String × String)) (datetime : Nat) (amount : Int)
    (purchaser : String) (cartRef : Nat) : Option (List Ticket) :=
  match Ticket.generateUniqueCode (tickets.map (fun t => t.code)) candidates with
  | none => none
  | some code => some (tickets ++ [mkTicket code datetime amount purchaser cartRef])

/-- `TicketDAO.findByPurchaser(email)`: `find { purchaser: email }` — the
filter compares the stored purchaser against the verbatim query string
(the sort by date does not affect membership and is omitted). -/
def TicketDAO.findByPurchaser (tickets : List Ticket) (email : String) :
    List Ticket :=
  tickets.filter (fun t => t.purchaser == email)

/-!
Derived notions used to state the claims.
-/

/-- Stock of the product with the given id, 0 when the id does not resolve. -/
def stockOf (ps : List Product) (pid : Nat) : Int :=
  match findProduct ps pid with
  | some p => p.stock
  | none => 0

/-- Title of the product with the given id. -/
def titleOf (ps : List Product) (pid : Nat) : String :=
  match findProduct ps pid with
  | some p => p.title
  | none => ""

/-- A line is fulfillable at purchase time when the product resolves and
its live stock is at least the line quantity. -/
def lineFulfillable (ps : List Product) (it : LineItem) : Bool :=
  match findProduct ps it.product with
  | some p => (it.quantity : Int) ≤ p.stock
  | none => false

/-- The processed set `purchase` builds: one entry per fulfillable line,
with the subtotal quantity times snapshot price. -/
def processedOf (ps : List Product) (items : List LineItem) : List ProcessedItem :=
  (items.filter (lineFulfillable ps)).map (fun it =>
    { product := it.product, title := titleOf ps it.product, quantity := it.quantity,
      price := it.price, subtotal := (it.quantity : Int) * it.price })

/-- The not-processed set `purchase` builds: one entry per unfulfillable
line, recording requested and available quantities. -/
def notProcessedOf (ps : List Product) (items : List LineItem) : List NotProcessedItem :=
  (items.filter (fun it => !(lineFulfillable ps it))).map (fun it =>
    { product := it.product, title := titleOf ps it.product,
      requestedQuantity := it.quantity, availableStock := stockOf ps it.product })

/-- Total quantity the unfulfillable lines return to the given product. -/
def returnedFor (ps : List Product) (items : List LineItem) (pid : Nat) : Nat :=
  ((items.filter (fun it => !(lineFulfillable ps it) && (it.product == pid))).map
    (fun it => it.quantity)).sum

/-- Total quantity the lines of a cart reserve for the given product. -/
def linesReserved (items : List LineItem) (pid : Nat) : Nat :=
  ((items.filter (fun it => it.product == pid)).map (fun it => it.quantity)).sum

/-- Reservation a single cart contributes: its line quantities when the
cart is active, nothing otherwise. -/
def activeReserved (c : Cart) (pid : Nat) : Nat :=
  if c.status = CartStatus.active then linesReserved c.products pid else 0

/-- Total active-cart reservation of a product over a cart collection. -/
def reservedSum (cs : List Cart) (pid : Nat) : Nat :=
  (cs.map (fun c => activeReserved c pid)).sum

/-- Total active-cart reservation of a product in a state. -/
def reservedFor (s : State) (pid : Nat) : Nat :=
  reservedSum s.carts pid

/-- The stored-total invariant: every cart document carries the sum of
quantity times snapshot price over its current lines. -/
def TotalsOk (s : State) : Prop :=
  ∀ c ∈ s.carts, c.totalPrice = calcTotal c.products

/-- The cart mutations of the no-checkout fragment. -/
inductive CartOp where
  | add (userId productId : Nat) (quantity : Nat)
  | update (cartId productId : Nat) (newQuantity : Nat)
  | remove (cartId productId : Nat)
  | clear (cartId : Nat)
deriving DecidableEq, Repr

/-- Run one repository operation; a thrown error leaves the state as it
was (the boundary layer reports it and performs no write). -/
def applyOp (s : State) : CartOp → State
  | CartOp.add uid pid q =>
    match CartRepository.addProduct s uid pid q with
    | Except.ok s1 => s1
    | Except.error _ => s
  | CartOp.update cid pid q =>
    match CartRepository.updateProductQuantity s cid pid q with
    | Except.ok s1 => s1
    | Except.error _ => s
  | CartOp.remove cid pid =>
    match CartRepository.removeProduct s cid pid with
    | Except.ok s1 => s1
    | Except.error _ => s
  | CartOp.clear cid =>
    match CartRepository.clearCart s cid with
    | Except.ok s1 => s1
    | Except.error _ => s

/-- Run a sequence of cart mutations. -/
def runOps (s : State) (ops : List CartOp) : State :=
  ops.foldl applyOp s

/-!
Basic lemmas about the collection primitives.
-/

theorem findProduct_id {ps : List Product} {pid : Nat} {p : Product}
    (h : findProduct ps pid = some p) : p.id = pid := by
  have := List.find?_some h
  simpa using this

theorem findCart_id {cs : List Cart} {cid : Nat} {c : Cart}
    (h : findCart cs cid = some c) : c.id = cid := by
  have := List.find?_some h
  simpa using this

theorem findLine_product {items : List LineItem} {pid : Nat} {it : LineItem}
    (h : findLine items pid = some it) : it.product = pid := by
  have := List.find?_some h
  simpa using this

theorem docStr_beq_idStr (a b : Nat) :
    (JsString.docStr a == JsString.idStr b) = false := rfl

theorem findLinePopulated_eq_none (ps : List Product) (items : List LineItem)
    (pid : Nat) : findLinePopulated ps items pid = none := by
  unfold findLinePopulated
  rw [List.find?_eq_none]
  intro it hmem
  cases hfp : findProduct ps it.product with
  | none => simp
  | some doc =>
    dsimp only
    rw [docStr_beq_idStr]
    simp

theorem findCart_mem {cs : List Cart} {cid : Nat} {c : Cart}
    (h : findCart cs cid = some c) : c ∈ cs :=
  List.mem_of_find?_eq_some h

theorem findActiveCart_mem {cs : List Cart} {uid : Nat} {c : Cart}
    (h : findActiveCart cs uid = some c) : c ∈ cs :=
  List.mem_of_find?_eq_some h

theorem findActiveCart_user_status {cs : List Cart} {uid : Nat} {c : Cart}
    (h : findActiveCart cs uid = some c) :
    c.user = uid ∧ c.status = CartStatus.active := by
  have := List.find?_some h
  simp only [Bool.and_eq_true, beq_iff_eq] at this
  exact this

theorem findProduct_modifyProduct (ps : List Product) (pid0 pid : Nat)
    (f : Product → Product) (hf : ∀ p, (f p).id = p.id) :
    findProduct (modifyProduct ps pid0 f) pid =
      if pid0 = pid then (findProduct ps pid).map f else findProduct ps pid := by
  induction ps with
  | nil =>
    by_cases h : pid0 = pid <;> simp [modifyProduct, findProduct, h]
  | cons p rest ih =>
    unfold findProduct at ih ⊢
    by_cases h0 : p.id = pid0
    · rw [show modifyProduct (p :: rest) pid0 f = f p :: rest from by
        simp [modifyProduct, h0]]
      by_cases h1 : pid0 = pid
      · have hp : p.id = pid := h1 ▸ h0
        rw [List.find?_cons_of_pos _ (by simp [hf p, hp]),
            List.find?_cons_of_pos _ (by simp [hp])]
        simp [h1]
      · have hp : ¬ p.id = pid := fun hc => h1 (by rw [← h0, hc])
        rw [List.find?_cons_of_neg _ (by simp [hf p, hp]),
            List.find?_cons_of_neg _ (by simp [hp])]
        simp [h1]
    · rw [show modifyProduct (p :: rest) pid0 f = p :: modifyProduct rest pid0 f from by
        simp [modifyProduct, h0]]
      by_cases h2 : p.id = pid
      · have h1 : ¬ pid0 = pid := fun hc => h0 (by rw [h2, hc])
        rw [List.find?_cons_of_pos _ (by simp [h2]),
            List.find?_cons_of_pos _ (by simp [h2])]
        simp [h1]
      · rw [List.find?_cons_of_neg _ (by simp [h2]),
            List.find?_cons_of_neg _ (by simp [h2])]
        exact ih

theorem findProduct_incrementStock (ps : List Product) (pid0 pid : Nat) (a : Int) :
    findProduct (ProductDAO.incrementStock ps pid0 a) pid =
      if pid0 = pid then (findProduct ps pid).map
        (fun p => { p with stock := p.stock + a }) else findProduct ps pid :=
  findProduct_modifyProduct ps pid0 pid _ (fun _ => rfl)

theorem findProduct_decrementStock (ps : List Product) (pid0 pid : Nat) (a : Int) :
    findProduct (ProductDAO.decrementStock ps pid0 a) pid =
      if pid0 = pid then (findProduct ps pid).map
        (fun p => { p with stock := p.stock - a }) else findProduct ps pid :=
  findProduct_modifyProduct ps pid0 pid _ (fun _ => rfl)

theorem stockOf_incrementStock (ps : List Product) (pid0 pid : Nat) (a : Int) :
    stockOf (ProductDAO.incrementStock ps pid0 a) pid =
      if pid0 = pid ∧ (findProduct ps pid).isSome
      then stockOf ps pid + a else stockOf ps pid := by
  unfold stockOf
  rw [findProduct_incrementStock]
  by_cases h : pid0 = pid
  · cases hfp : findProduct ps pid with
    | none => simp [h, hfp]
    | some p => simp [h, hfp]
  · simp [h]

theorem stockOf_decrementStock (ps : List Product) (pid0 pid : Nat) (a : Int) :
    stockOf (ProductDAO.decrementStock ps pid0 a) pid =
      if pid0 = pid ∧ (findProduct ps pid).isSome
      then stockOf ps pid - a else stockOf ps pid := by
  unfold stockOf
  rw [findProduct_decrementStock]
  by_cases h : pid0 = pid
  · cases hfp : findProduct ps pid with
    | none => simp [h, hfp]
    | some p => simp [h, hfp]
  · simp [h]

theorem isSome_incrementStock (ps : List Product) (pid0 pid : Nat) (a : Int) :
    (findProduct (ProductDAO.incrementStock ps pid0 a) pid).isSome =
      (findProduct ps pid).isSome := by
  rw [findProduct_incrementStock]
  by_cases h : pid0 = pid <;> simp [h]

theorem isSome_decrementStock (ps : List Product) (pid0 pid : Nat) (a : Int) :
    (findProduct (ProductDAO.decrementStock ps pid0 a) pid).isSome =
      (findProduct ps pid).isSome := by
  rw [findProduct_decrementStock]
  by_cases h : pid0 = pid <;> simp [h]

theorem replaceCart_of_find_none (cs : List Cart) (cid : Nat) (c : Cart)
    (h : findCart cs cid = none) : replaceCart cs cid c = cs := by
  induction cs with
  | nil => rfl
  | cons c0 rest ih =>
    unfold findCart at h ih
    by_cases h0 : c0.id = cid
    · rw [List.find?_cons_of_pos _ (by simp [h0])] at h
      exact absurd h (by simp)
    · rw [List.find?_cons_of_neg _ (by simp [h0])] at h
      simp [replaceCart, h0, ih h]

theorem findCart_replaceCart (cs : List Cart) (cid0 cid : Nat) (c : Cart)
    (hid : c.id = cid0) :
    findCart (replaceCart cs cid0 c) cid =
      if cid0 = cid ∧ (findCart cs cid0).isSome then some c
      else findCart cs cid := by
  induction cs with
  | nil => simp [replaceCart, findCart]
  | cons c0 rest ih =>
    unfold findCart at ih ⊢
    by_cases h0 : c0.id = cid0
    · rw [show replaceCart (c0 :: rest) cid0 c = c :: rest from by
        simp [replaceCart, h0]]
      rw [show List.find? (fun x => x.id == cid0) (c0 :: rest) = some c0 from
        List.find?_cons_of_pos _ (by simp [h0])]
      by_cases h1 : cid0 = cid
      · rw [List.find?_cons_of_pos _ (by simp [hid, h1])]
        simp [h1]
      · have hc0 : ¬ c0.id = cid := fun hc => h1 (by rw [← h0, hc])
        rw [List.find?_cons_of_neg _ (by simp [hid, h1]),
            List.find?_cons_of_neg _ (by simp [hc0])]
        simp [h1]
    · rw [show replaceCart (c0 :: rest) cid0 c = c0 :: replaceCart rest cid0 c from by
        simp [replaceCart, h0]]
      rw [show List.find? (fun x => x.id == cid0) (c0 :: rest)
            = List.find? (fun x => x.id == cid0) rest from
        List.find?_cons_of_neg _ (by simp [h0])]
      by_cases h2 : c0.id = cid
      · rw [List.find?_cons_of_pos _ (by simp [h2]),
            List.find?_cons_of_pos _ (by simp [h2])]
        have h1 : ¬ cid0 = cid := fun hc => h0 (by rw [h2, hc])
        simp [h1]
      · rw [List.find?_cons_of_neg _ (by simp [h2]),
            List.find?_cons_of_neg _ (by simp [h2])]
        exact ih

theorem mem_replaceCart {cs : List Cart} {cid : Nat} {c c1 : Cart}
    (h : c1 ∈ replaceCart cs cid c) : c1 = c ∨ c1 ∈ cs := by
  induction cs with
  | nil => simp [replaceCart] at h
  | cons c0 rest ih =>
    unfold replaceCart at h
    by_cases h0 : c0.id = cid
    · rw [if_pos (by simp [h0])] at h
      rcases List.mem_cons.mp h with h1 | h1
      · exact Or.inl h1
      · exact Or.inr (List.mem_cons.mpr (Or.inr h1))
    · rw [if_neg (by simp [h0])] at h
      rcases List.mem_cons.mp h with h1 | h1
      · exact Or.inr (List.mem_cons.mpr (Or.inl h1))
      · rcases ih h1 with h2 | h2
        · exact Or.inl h2
        · exact Or.inr (List.mem_cons.mpr (Or.inr h2))

theorem findCart_isSome_of_mem {cs : List Cart} {c : Cart} (h : c ∈ cs) :
    (findCart cs c.id).isSome := by
  unfold findCart
  rw [List.find?_isSome]
  exact ⟨c, h, by simp⟩

theorem findCart_of_mem_nodup {cs : List Cart} {c : Cart} (hmem : c ∈ cs)
    (hnd : (cs.map (fun x => x.id)).Nodup) : findCart cs c.id = some c := by
  induction cs with
  | nil => simp at hmem
  | cons c0 rest ih =>
    rcases List.mem_cons.mp hmem with h1 | h1
    · subst h1
      unfold findCart
      rw [List.find?_cons_of_pos _ (by simp)]
    · by_cases h0 : c0.id = c.id
      · exfalso
        have hin : c.id ∈ rest.map (fun x => x.id) :=
          List.mem_map.mpr ⟨c, h1, rfl⟩
        have := (List.nodup_cons.mp hnd).1
        exact this (by simpa [h0] using hin)
      · unfold findCart
        rw [List.find?_cons_of_neg _ (by simp [h0])]
        exact ih h1 (List.nodup_cons.mp hnd).2

theorem findLine_bumpLine (items : List LineItem) (pid : Nat) (q : Nat)
    {it : LineItem} (h : findLine items pid = some it) :
    findLine (bumpLine items pid q) pid = some { it with quantity := it.quantity + q } := by
  induction items with
  | nil => simp [findLine] at h
  | cons it0 rest ih =>
    unfold findLine at h ih ⊢
    by_cases h0 : it0.product = pid
    · rw [List.find?_cons_of_pos _ (by simp [h0])] at h
      rw [show bumpLine (it0 :: rest) pid q
            = { it0 with quantity := it0.quantity + q } :: rest from by
        simp [bumpLine, h0]]
      rw [List.find?_cons_of_pos _ (by simp [h0])]
      cases h
      rfl
    · rw [List.find?_cons_of_neg _ (by simp [h0])] at h
      rw [show bumpLine (it0 :: rest) pid q = it0 :: bumpLine rest pid q from by
        simp [bumpLine, h0]]
      rw [List.find?_cons_of_neg _ (by simp [h0])]
      exact ih h

theorem bumpLine_map_product (items : List LineItem) (pid q : Nat) :
    (bumpLine items pid q).map (fun it => it.product) =
      items.map (fun it => it.product) := by
  induction items with
  | nil => rfl
  | cons it0 rest ih =>
    by_cases h0 : it0.product = pid
    · simp [bumpLine, h0]
    · simp [bumpLine, h0, ih]

theorem setLineQuantity_map_product (items : List LineItem) (pid q : Nat) :
    (setLineQuantity items pid q).map (fun it => it.product) =
      items.map (fun it => it.product) := by
  induction items with
  | nil => rfl
  | cons it0 rest ih =>
    by_cases h0 : it0.product = pid
    · simp [setLineQuantity, h0]
    · simp [setLineQuantity, h0, ih]

theorem linesReserved_nil (pid : Nat) : linesReserved [] pid = 0 := rfl

theorem linesReserved_cons (it : LineItem) (items : List LineItem) (pid : Nat) :
    linesReserved (it :: items) pid =
      (if it.product = pid then it.quantity else 0) + linesReserved items pid := by
  by_cases h : it.product = pid
  · simp [linesReserved, h]
  · simp [linesReserved, h]

theorem linesReserved_bumpLine (items : List LineItem) (pid0 q pid : Nat)
    {it : LineItem} (h : findLine items pid0 = some it) :
    linesReserved (bumpLine items pid0 q) pid =
      linesReserved items pid + (if pid0 = pid then q else 0) := by
  induction items with
  | nil => simp [findLine] at h
  | cons it0 rest ih =>
    unfold findLine at h ih
    by_cases h0 : it0.product = pid0
    · rw [show bumpLine (it0 :: rest) pid0 q
            = { it0 with quantity := it0.quantity + q } :: rest from by
        simp [bumpLine, h0]]
      rw [linesReserved_cons, linesReserved_cons]
      by_cases h1 : pid0 = pid
      · subst h1
        simp only [show ({ it0 with quantity := it0.quantity + q } : LineItem).product
            = it0.product from rfl, h0, eq_self_iff_true, if_true]
        omega
      · have hne : ¬ it0.product = pid := fun hc => h1 (by rw [← h0, hc])
        simp only [show ({ it0 with quantity := it0.quantity + q } : LineItem).product
            = it0.product from rfl, if_neg hne, if_neg h1]
        omega
    · rw [show bumpLine (it0 :: rest) pid0 q = it0 :: bumpLine rest pid0 q from by
        simp [bumpLine, h0]]
      rw [List.find?_cons_of_neg _ (by simp [h0])] at h
      rw [linesReserved_cons, linesReserved_cons, ih h]
      omega

theorem linesReserved_setLineQuantity (items : List LineItem) (pid0 q pid : Nat)
    {it : LineItem} (h : findLine items pid0 = some it) :
    linesReserved (setLineQuantity items pid0 q) pid
        + (if pid0 = pid then it.quantity else 0) =
      linesReserved items pid + (if pid0 = pid then q else 0) := by
  induction items with
  | nil => simp [findLine] at h
  | cons it0 rest ih =>
    unfold findLine at h ih
    by_cases h0 : it0.product = pid0
    · rw [List.find?_cons_of_pos _ (by simp [h0])] at h
      have hit : it = it0 := (Option.some.inj h).symm
      subst hit
      rw [show setLineQuantity (it :: rest) pid0 q
            = { it with quantity := q } :: rest from by
        simp [setLineQuantity, h0]]
      rw [linesReserved_cons, linesReserved_cons]
      by_cases h1 : pid0 = pid
      · subst h1
        simp only [show ({ it with quantity := q } : LineItem).product
            = it.product from rfl, h0, eq_self_iff_true, if_true]
        omega
      · have hne : ¬ it.product = pid := fun hc => h1 (by rw [← h0, hc])
        simp only [show ({ it with quantity := q } : LineItem).product
            = it.product from rfl, if_neg hne, if_neg h1]
    · rw [List.find?_cons_of_neg _ (by simp [h0])] at h
      rw [show setLineQuantity (it0 :: rest) pid0 q
            = it0 :: setLineQuantity rest pid0 q from by
        simp [setLineQuantity, h0]]
      rw [linesReserved_cons, linesReserved_cons]
      have := ih h
      omega

theorem linesReserved_append_one (items : List LineItem) (pid0 q pid : Nat)
    (price : Int) :
    linesReserved (items ++ [{ product := pid0, quantity := q, price := price }]) pid =
      linesReserved items pid + (if pid0 = pid then q else 0) := by
  induction items with
  | nil =>
    by_cases h : pid0 = pid <;>
      simp [linesReserved_nil, linesReserved_cons, h]
  | cons it0 rest ih =>
    rw [List.cons_append, linesReserved_cons, linesReserved_cons, ih]
    omega

theorem linesReserved_removeAll (items : List LineItem) (pid0 pid : Nat) :
    linesReserved (items.filter (fun it => !(it.product == pid0))) pid =
      if pid0 = pid then 0 else linesReserved items pid := by
  induction items with
  | nil => by_cases h : pid0 = pid <;> simp [linesReserved_nil, h]
  | cons it0 rest ih =>
    rw [List.filter_cons]
    by_cases h0 : it0.product = pid0
    · rw [if_neg (by simp [h0])]
      rw [ih, linesReserved_cons]
      by_cases h1 : pid0 = pid
      · simp [h1]
      · have hne : ¬ it0.product = pid := fun hc => h1 (by rw [← h0, hc])
        rw [if_neg h1, if_neg h1, if_neg hne]
        omega
    · rw [if_pos (by simp [h0])]
      rw [linesReserved_cons, ih, linesReserved_cons]
      by_cases h1 : pid0 = pid
      · have hne : ¬ it0.product = pid := fun hc => h0 (by rw [hc, h1])
        rw [if_pos h1, if_pos h1, if_neg hne]
      · rw [if_neg h1, if_neg h1]

theorem linesReserved_eq_zero_of_find_none (items : List LineItem) (pid : Nat)
    (h : findLine items pid = none) : linesReserved items pid = 0 := by
  induction items with
  | nil => rfl
  | cons it0 rest ih =>
    unfold findLine at h ih
    by_cases h0 : it0.product = pid
    · rw [List.find?_cons_of_pos _ (by simp [h0])] at h
      cases h
    · rw [List.find?_cons_of_neg _ (by simp [h0])] at h
      rw [linesReserved_cons, ih h]
      simp [h0]

theorem linesReserved_of_nodup (items : List LineItem) (pid : Nat)
    {it : LineItem} (hnd : (items.map (fun x => x.product)).Nodup)
    (h : findLine items pid = some it) : linesReserved items pid = it.quantity := by
  induction items with
  | nil => simp [findLine] at h
  | cons it0 rest ih =>
    unfold findLine at h ih
    by_cases h0 : it0.product = pid
    · rw [List.find?_cons_of_pos _ (by simp [h0])] at h
      have hit : it = it0 := (Option.some.inj h).symm
      subst hit
      rw [linesReserved_cons]
      have hnone : findLine rest pid = none := by
        unfold findLine
        rw [List.find?_eq_none]
        intro x hx
        simp only [beq_iff_eq]
        intro hc
        have hin : pid ∈ rest.map (fun x => x.product) :=
          List.mem_map.mpr ⟨x, hx, hc⟩
        exact (List.nodup_cons.mp hnd).1 (by simpa [h0] using hin)
      rw [linesReserved_eq_zero_of_find_none rest pid hnone]
      simp [h0]
    · rw [List.find?_cons_of_neg _ (by simp [h0])] at h
      rw [linesReserved_cons, ih (List.nodup_cons.mp hnd).2 h]
      simp [h0]

theorem reservedSum_nil (pid : Nat) : reservedSum [] pid = 0 := rfl

theorem reservedSum_cons (c : Cart) (cs : List Cart) (pid : Nat) :
    reservedSum (c :: cs) pid = activeReserved c pid + reservedSum cs pid := by
  simp [reservedSum]

theorem reservedSum_append (cs1 cs2 : List Cart) (pid : Nat) :
    reservedSum (cs1 ++ cs2) pid = reservedSum cs1 pid + reservedSum cs2 pid := by
  simp [reservedSum]

theorem reservedSum_replaceCart (cs : List Cart) (cid : Nat) {c : Cart}
    (c1 : Cart) (pid : Nat) (h : findCart cs cid = some c) :
    reservedSum (replaceCart cs cid c1) pid + activeReserved c pid =
      reservedSum cs pid + activeReserved c1 pid := by
  induction cs with
  | nil => simp [findCart] at h
  | cons c0 rest ih =>
    unfold findCart at h ih
    by_cases h0 : c0.id = cid
    · rw [List.find?_cons_of_pos _ (by simp [h0])] at h
      have hc : c = c0 := (Option.some.inj h).symm
      subst hc
      rw [show replaceCart (c :: rest) cid c1 = c1 :: rest from by
        simp [replaceCart, h0]]
      rw [reservedSum_cons, reservedSum_cons]
      omega
    · rw [List.find?_cons_of_neg _ (by simp [h0])] at h
      rw [show replaceCart (c0 :: rest) cid c1 = c0 :: replaceCart rest cid c1 from by
        simp [replaceCart, h0]]
      rw [reservedSum_cons, reservedSum_cons]
      have := ih h
      omega

theorem foldl_add_extract {α : Type} (f : α → Int) (l : List α) (a : Int) :
    l.foldl (fun acc x => acc + f x) a = a + (l.map f).sum := by
  induction l generalizing a with
  | nil => simp
  | cons x rest ih =>
    rw [List.foldl_cons, ih, List.map_cons, List.sum_cons]
    ring

theorem calcTotal_eq_sum (items : List LineItem) :
    calcTotal items = (items.map (fun it => it.price * (it.quantity : Int))).sum := by
  unfold calcTotal
  rw [foldl_add_extract (fun it => it.price * (it.quantity : Int)) items 0]
  simp

theorem generateUniqueCode_fresh (existingCodes : List String)
    (candidates : List (String × String)) (code : String)
    (h : Ticket.generateUniqueCode existingCodes candidates = some code) :
    code ∉ existingCodes ∧
      ∃ ts rnd, (ts, rnd) ∈ candidates ∧ code = ticketCodeFormat ts rnd := by
  induction candidates with
  | nil => simp [Ticket.generateUniqueCode] at h
  | cons c rest ih =>
    obtain ⟨ts, rnd⟩ := c
    unfold Ticket.generateUniqueCode at h
    by_cases hmem : ticketCodeFormat ts rnd ∈ existingCodes
    · rw [if_pos hmem] at h
      obtain ⟨h1, ts2, rnd2, h2, h3⟩ := ih h
      exact ⟨h1, ts2, rnd2, List.mem_cons.mpr (Or.inr h2), h3⟩
    · rw [if_neg hmem] at h
      have hc : code = ticketCodeFormat ts rnd := (Option.some.inj h).symm
      subst hc
      exact ⟨hmem, ts, rnd, List.mem_cons.mpr (Or.inl rfl), rfl⟩

/-!
Claim theorems.
-/

/-- Claim C5, counterexample: decrementing a product with stock 1 by 5
succeeds and leaves stock at -4 — the operation raises no
InsufficientStock failure and drives the stock negative, contradicting
the claim. -/
theorem decrementStock_negative_cex :
    ProductDAO.decrementStock [{ id := 1, title := "P", price := 10, stock := 1 }] 1 5
      = [{ id := 1, title := "P", price := 10, stock := -4 }] := by decide

/-- Claim C5, amended: the inventory decrement operation performs no stock
check and cannot fail with InsufficientStock; whenever the product id
resolves it unconditionally subtracts the requested amount from the
current stock (driving stock negative when the amount exceeds it), so
non-negativity relies entirely on callers pre-checking hasStock. -/
theorem decrementStock_unconditional (ps : List Product) (pid : Nat)
    (amount : Int) (p : Product) (h : findProduct ps pid = some p) :
    findProduct (ProductDAO.decrementStock ps pid amount) pid
        = some { p with stock := p.stock - amount } ∧
    stockOf (ProductDAO.decrementStock ps pid amount) pid = p.stock - amount := by
  constructor
  · rw [findProduct_decrementStock]
    simp [h]
  · rw [stockOf_decrementStock]
    rw [if_pos ⟨rfl, by simp [h]⟩]
    unfold stockOf
    rw [h]

/-- Witness for the amended C5 theorem at a concrete product. -/
theorem decrementStock_unconditional_witness :
    findProduct (ProductDAO.decrementStock
        [{ id := 1, title := "P", price := 10, stock := 1 }] 1 5) 1
      = some { id := 1, title := "P", price := 10, stock := 1 - 5 } ∧
    stockOf (ProductDAO.decrementStock
        [{ id := 1, title := "P", price := 10, stock := 1 }] 1 5) 1 = 1 - 5 :=
  decrementStock_unconditional [{ id := 1, title := "P", price := 10, stock := 1 }] 1 5
    { id := 1, title := "P", price := 10, stock := 1 } (by decide)

/-- Claim C9: ticket creation generates a candidate code of the form
TICKET-timestamp-random, checks it against the codes of the stored
tickets, retries on collision, and persists only a code no stored ticket
carries, so the stored codes stay pairwise distinct. -/
theorem ticket_create_unique_code (tickets : List Ticket)
    (candidates : List (String × String)) (datetime : Nat) (amount : Int)
    (purchaser : String) (cartRef : Nat) (tickets1 : List Ticket)
    (h : TicketRepository.create tickets candidates datetime amount purchaser cartRef
        = some tickets1) :
    ∃ code, tickets1 = tickets ++ [mkTicket code datetime amount purchaser cartRef] ∧
      code ∉ tickets.map (fun t => t.code) ∧
      (∃ ts rnd, (ts, rnd) ∈ candidates ∧ code = ticketCodeFormat ts rnd) ∧
      ((tickets.map (fun t => t.code)).Nodup → (tickets1.map (fun t => t.code)).Nodup) := by
  unfold TicketRepository.create at h
  cases hg : Ticket.generateUniqueCode (tickets.map (fun t => t.code)) candidates with
  | none => rw [hg] at h; cases h
  | some code =>
    rw [hg] at h
    have ht : tickets1 = tickets ++ [mkTicket code datetime amount purchaser cartRef] :=
      (Option.some.inj h).symm
    obtain ⟨hfresh, hform⟩ := generateUniqueCode_fresh _ _ _ hg
    refine ⟨code, ht, hfresh, hform, ?_⟩
    intro hnd
    subst ht
    rw [List.map_append]
    rw [List.nodup_append]
    refine ⟨hnd, by simp, ?_⟩
    intro x hx
    simp only [List.map_cons, List.map_nil, List.mem_singleton]
    intro hcx
    have : x = code := by
      simpa [mkTicket] using hcx
    subst this
    exact hfresh hx

/-- Witness for the C9 theorem: one stored ticket, a colliding first
candidate, a fresh second candidate. -/
theorem ticket_create_unique_code_witness :
    ∃ code,
      [mkTicket "TICKET-X-Y" 0 5 "a@b.com" 1, mkTicket "TICKET-X-Z" 1 10 "c@d.com" 2]
        = [mkTicket "TICKET-X-Y" 0 5 "a@b.com" 1] ++ [mkTicket code 1 10 "c@d.com" 2] ∧
      code ∉ ([mkTicket "TICKET-X-Y" 0 5 "a@b.com" 1].map (fun t => t.code)) ∧
      (∃ ts rnd, (ts, rnd) ∈ [("X","Y"),("X","Z")] ∧ code = ticketCodeFormat ts rnd) ∧
      ((([mkTicket "TICKET-X-Y" 0 5 "a@b.com" 1]).map (fun t => t.code)).Nodup →
        (([mkTicket "TICKET-X-Y" 0 5 "a@b.com" 1, mkTicket "TICKET-X-Z" 1 10 "c@d.com" 2]).map
          (fun t => t.code)).Nodup) :=
  ticket_create_unique_code [mkTicket "TICKET-X-Y" 0 5 "a@b.com" 1]
    [("X","Y"),("X","Z")] 1 10 "c@d.com" 2
    [mkTicket "TICKET-X-Y" 0 5 "a@b.com" 1, mkTicket "TICKET-X-Z" 1 10 "c@d.com" 2]
    (by decide)

/-- Claim C10, counterexample: a ticket created with purchaser email
" A@B.COM " is stored with purchaser "a@b.com" (lowercased and trimmed),
but the query lowercase(" A@B.COM ") = " a@b.com " still carries the
surrounding spaces, so the verbatim filter returns nothing — the claim
that the ticket is returned by getByPurchaser(lowercase(e)) fails. -/
theorem ticket_lowercase_query_cex :
    TicketDAO.findByPurchaser [mkTicket "c" 0 10 " A@B.COM " 1]
      (jsToLower " A@B.COM ") = [] := by decide

/-- Claim C10, amended: the stored purchaser is the lowercased trimmed
form of the creation email, and getByPurchaser filters on the verbatim
query; hence a ticket created with purchaser email e is returned by
getByPurchaser(lowercase(trim(e))), and by getByPurchaser(q) only when q
equals lowercase(trim(e)). -/
theorem ticket_purchaser_normalized_query (tickets : List Ticket) (t : Ticket)
    (email : String) (ht : t ∈ tickets) (hp : t.purchaser = normalizePurchaser email) :
    t ∈ TicketDAO.findByPurchaser tickets (normalizePurchaser email) ∧
    ∀ q, t ∈ TicketDAO.findByPurchaser tickets q → q = normalizePurchaser email := by
  constructor
  · unfold TicketDAO.findByPurchaser
    rw [List.mem_filter]
    exact ⟨ht, by simp [hp]⟩
  · intro q hq
    unfold TicketDAO.findByPurchaser at hq
    have hpq := (List.mem_filter.mp hq).2
    simp only [beq_iff_eq] at hpq
    rw [← hpq]
    exact hp

/-- Witness for the amended C10 theorem at a concrete ticket. -/
theorem ticket_purchaser_normalized_query_witness :
    mkTicket "c" 0 10 " A@B.COM " 1 ∈
      TicketDAO.findByPurchaser [mkTicket "c" 0 10 " A@B.COM " 1]
        (normalizePurchaser " A@B.COM ") ∧
    ∀ q, mkTicket "c" 0 10 " A@B.COM " 1 ∈
        TicketDAO.findByPurchaser [mkTicket "c" 0 10 " A@B.COM " 1] q →
      q = normalizePurchaser " A@B.COM " :=
  ticket_purchaser_normalized_query _ _ " A@B.COM " (by decide) (by decide)

theorem processedOf_cons (ps0 : List Product) (it : LineItem) (rest : List LineItem) :
    processedOf ps0 (it :: rest) =
      if lineFulfillable ps0 it then
        { product := it.product, title := titleOf ps0 it.product, quantity := it.quantity,
          price := it.price, subtotal := (it.quantity : Int) * it.price }
          :: processedOf ps0 rest
      else processedOf ps0 rest := by
  unfold processedOf
  rw [List.filter_cons]
  cases h : lineFulfillable ps0 it <;> simp [h]

theorem notProcessedOf_cons (ps0 : List Product) (it : LineItem) (rest : List LineItem) :
    notProcessedOf ps0 (it :: rest) =
      if lineFulfillable ps0 it then notProcessedOf ps0 rest
      else
        { product := it.product, title := titleOf ps0 it.product,
          requestedQuantity := it.quantity, availableStock := stockOf ps0 it.product }
          :: notProcessedOf ps0 rest := by
  unfold notProcessedOf
  rw [List.filter_cons]
  cases h : lineFulfillable ps0 it <;> simp [h]

theorem returnedFor_cons (ps0 : List Product) (it : LineItem) (rest : List LineItem)
    (pid : Nat) :
    returnedFor ps0 (it :: rest) pid =
      (if lineFulfillable ps0 it then 0
        else if it.product = pid then it.quantity else 0)
        + returnedFor ps0 rest pid := by
  unfold returnedFor
  rw [List.filter_cons]
  cases h : lineFulfillable ps0 it
  · by_cases h2 : it.product = pid <;> simp [h, h2]
  · simp [h]

theorem purchaseLoop_spec (s0 : State) (items : List LineItem) (s : State)
    (ps : List ProcessedItem) (ns : List NotProcessedItem)
    (hres : ∀ it ∈ items, (findProduct s0.products it.product).isSome)
    (hpres : ∀ pid, (findProduct s.products pid).isSome
      = (findProduct s0.products pid).isSome) :
    ∃ s1, purchaseLoop s0 items s ps ns =
        Except.ok (ps.reverse ++ processedOf s0.products items,
                   ns.reverse ++ notProcessedOf s0.products items, s1) ∧
      s1.carts = s.carts ∧ s1.nextCartId = s.nextCartId ∧
      (∀ pid, (findProduct s1.products pid).isSome
        = (findProduct s0.products pid).isSome) ∧
      (∀ pid, stockOf s1.products pid
        = stockOf s.products pid + (returnedFor s0.products items pid : Int)) := by
  induction items generalizing s ps ns with
  | nil =>
    refine ⟨s, ?_, rfl, rfl, hpres, ?_⟩
    · simp [purchaseLoop, processedOf, notProcessedOf]
    · intro pid
      simp [returnedFor]
  | cons it rest ih =>
    have hit : (findProduct s0.products it.product).isSome :=
      hres it (List.mem_cons.mpr (Or.inl rfl))
    obtain ⟨product, hp⟩ := Option.isSome_iff_exists.mp hit
    have hpid : product.id = it.product := findProduct_id hp
    have htitle : titleOf s0.products it.product = product.title := by
      unfold titleOf
      rw [hp]
    have hstock0 : stockOf s0.products it.product = product.stock := by
      unfold stockOf
      rw [hp]
    have hrest : ∀ x ∈ rest, (findProduct s0.products x.product).isSome :=
      fun x hx => hres x (List.mem_cons.mpr (Or.inr hx))
    unfold purchaseLoop
    rw [hp]
    dsimp only
    by_cases hle : (it.quantity : Int) ≤ product.stock
    · have hful : lineFulfillable s0.products it = true := by
        unfold lineFulfillable
        rw [hp]
        simpa using hle
      rw [if_pos hle]
      obtain ⟨s1, hloop, hcarts, hnext, hpres1, hstock⟩ :=
        ih s ({ product := product.id, title := product.title, quantity := it.quantity,
                price := it.price, subtotal := (it.quantity : Int) * it.price } :: ps)
          ns hrest hpres
      refine ⟨s1, ?_, hcarts, hnext, hpres1, ?_⟩
      · rw [hloop, processedOf_cons, if_pos hful, notProcessedOf_cons, if_pos hful]
        rw [List.reverse_cons, List.append_assoc]
        simp [hpid, htitle]
      · intro pid
        rw [hstock pid, returnedFor_cons, if_pos hful]
        simp
    · have hful : lineFulfillable s0.products it = false := by
        unfold lineFulfillable
        rw [hp]
        simpa using hle
      rw [if_neg hle]
      have hpres2 : ∀ pid,
          (findProduct (ProductDAO.incrementStock s.products product.id
            (it.quantity : Int)) pid).isSome
          = (findProduct s0.products pid).isSome := by
        intro pid
        rw [isSome_incrementStock]
        exact hpres pid
      obtain ⟨s1, hloop, hcarts, hnext, hpres1, hstock⟩ :=
        ih { s with products := ProductDAO.incrementStock s.products product.id (it.quantity : Int) }
          ps
          ({ product := product.id, title := product.title,
             requestedQuantity := it.quantity, availableStock := product.stock } :: ns)
          hrest hpres2
      have hnf : ¬ (lineFulfillable s0.products it = true) := by simp [hful]
      refine ⟨s1, ?_, hcarts, hnext, hpres1, ?_⟩
      · rw [hloop, notProcessedOf_cons, if_neg hnf, processedOf_cons, if_neg hnf]
        rw [List.reverse_cons, List.append_assoc]
        simp [hpid, htitle, hstock0]
      · intro pid
        rw [hstock pid]
        dsimp only
        rw [stockOf_incrementStock, returnedFor_cons, if_neg hnf]
        by_cases hpp : it.product = pid
        · have hcond : product.id = pid ∧ (findProduct s.products pid).isSome :=
            ⟨by rw [hpid, hpp], by rw [hpres pid, ← hpp]; exact hit⟩
          rw [if_pos hcond, if_pos hpp]
          push_cast
          ring
        · have hcond : ¬ (product.id = pid ∧ (findProduct s.products pid).isSome) :=
            fun hcc => hpp (by rw [← hpid]; exact hcc.1)
          rw [if_neg hcond, if_neg hpp]
          simp

theorem purchaseLoop_carts (s0 : State) (items : List LineItem) :
    ∀ s ps ns res, purchaseLoop s0 items s ps ns = Except.ok res →
      res.2.2.carts = s.carts ∧ res.2.2.nextCartId = s.nextCartId := by
  induction items with
  | nil =>
    intro s ps ns res h
    unfold purchaseLoop at h
    cases h
    exact ⟨rfl, rfl⟩
  | cons it rest ih =>
    intro s ps ns res h
    unfold purchaseLoop at h
    cases hp : findProduct s0.products it.product with
    | none => rw [hp] at h; cases h
    | some product =>
      rw [hp] at h
      dsimp only at h
      by_cases hle : (it.quantity : Int) ≤ product.stock
      · rw [if_pos hle] at h
        exact ih s _ _ res h
      · rw [if_neg hle] at h
        obtain ⟨h1, h2⟩ := ih _ _ _ res h
        exact ⟨h1, h2⟩

theorem updateStatus_products (s : State) (cid : Nat) (st : CartStatus) :
    (CartDAO.updateStatus s cid st).products = s.products := by
  unfold CartDAO.updateStatus
  cases findCart s.carts cid <;> rfl

/-- Claim C1: purchase partitions the cart lines against current live
stock: a line with stock at least the quantity enters the processed set
with subtotal quantity times snapshot price and contributes to the
returned totalAmount, with no inventory change; a line with stock below
the quantity enters the not-processed set recording the requested and
available quantities, and the inventory of its product is incremented by
the full line quantity. -/
theorem purchase_partition (s : State) (cartId : Nat) (cart : Cart)
    (hc : findCart s.carts cartId = some cart)
    (hres : ∀ it ∈ cart.products, (findProduct s.products it.product).isSome) :
    ∃ s1, CartRepository.purchase s cartId =
        Except.ok ({ productsProcessed := processedOf s.products cart.products,
                     productsNotProcessed := notProcessedOf s.products cart.products,
                     totalAmount := ((processedOf s.products cart.products).map
                        (fun p => p.subtotal)).sum,
                     cartId := cartId }, s1) ∧
      ∀ pid, stockOf s1.products pid
        = stockOf s.products pid + (returnedFor s.products cart.products pid : Int) := by
  unfold CartRepository.purchase
  rw [hc]
  dsimp only
  obtain ⟨sl, hloop, hcarts, hnext, hpres1, hstock⟩ :=
    purchaseLoop_spec s cart.products s [] [] hres (fun _ => rfl)
  simp only [List.reverse_nil, List.nil_append] at hloop
  rw [hloop]
  dsimp only
  rw [foldl_add_extract (fun p => p.subtotal) (processedOf s.products cart.products) 0,
    zero_add]
  refine ⟨_, rfl, ?_⟩
  intro pid
  rw [updateStatus_products]
  split
  · dsimp only
    rw [hstock pid]
  · rw [hstock pid]

theorem processedOf_any_eq (ps0 : List Product) (items : List LineItem)
    (hnd : (items.map (fun x => x.product)).Nodup)
    {it : LineItem} (hmem : it ∈ items) :
    (processedOf ps0 items).any (fun p => p.product == it.product)
      = lineFulfillable ps0 it := by
  cases hful : lineFulfillable ps0 it
  · rw [List.any_eq_false]
    intro pr hpr
    unfold processedOf at hpr
    obtain ⟨it2, hit2, hpr2⟩ := List.mem_map.mp hpr
    have hfil := List.mem_filter.mp hit2
    simp only [beq_iff_eq]
    rw [← hpr2]
    intro hcontra
    have heq : it2 = it := List.inj_on_of_nodup_map hnd hfil.1 hmem hcontra
    rw [heq] at hfil
    rw [hfil.2] at hful
    cases hful
  · rw [List.any_eq_true]
    refine ⟨{ product := it.product, title := titleOf ps0 it.product,
              quantity := it.quantity, price := it.price,
              subtotal := (it.quantity : Int) * it.price }, ?_, by simp⟩
    unfold processedOf
    exact List.mem_map.mpr ⟨it, List.mem_filter.mpr ⟨hmem, hful⟩, rfl⟩

theorem notProcessedOf_eq_nil_iff (ps0 : List Product) (items : List LineItem) :
    notProcessedOf ps0 items = [] ↔ items.all (lineFulfillable ps0) := by
  unfold notProcessedOf
  constructor
  · intro h
    rw [List.all_eq_true]
    intro it hit
    by_contra hful
    have hmem : it ∈ items.filter (fun x => !(lineFulfillable ps0 x)) :=
      List.mem_filter.mpr ⟨hit, by simp [Bool.eq_false_iff.mpr hful]⟩
    rw [List.map_eq_nil_iff.mp h] at hmem
    cases hmem
  · intro h
    have : items.filter (fun x => !(lineFulfillable ps0 x)) = [] := by
      rw [List.filter_eq_nil_iff]
      intro it hit
      have := List.all_eq_true.mp h it hit
      simp [this]
    rw [this]
    rfl

/-- Claim C7: after purchase, the cart status is completed exactly when
every line was fulfillable (and is set to active otherwise), and the
persisted cart retains exactly the fulfillable lines. -/
theorem purchase_status_lines (s : State) (cartId : Nat) (cart : Cart)
    (hc : findCart s.carts cartId = some cart)
    (hres : ∀ it ∈ cart.products, (findProduct s.products it.product).isSome)
    (hnd : (cart.products.map (fun it => it.product)).Nodup) :
    ∃ r s1 cart1, CartRepository.purchase s cartId = Except.ok (r, s1) ∧
      findCart s1.carts cartId = some cart1 ∧
      cart1.products = cart.products.filter (lineFulfillable s.products) ∧
      cart1.status = (if cart.products.all (lineFulfillable s.products)
        then CartStatus.completed else CartStatus.active) := by
  have hcid : cart.id = cartId := findCart_id hc
  unfold CartRepository.purchase
  rw [hc]
  dsimp only
  obtain ⟨sl, hloop, hcarts, hnext, hpres1, hstock⟩ :=
    purchaseLoop_spec s cart.products s [] [] hres (fun _ => rfl)
  simp only [List.reverse_nil, List.nil_append] at hloop
  rw [hloop]
  dsimp only
  have hfc : findCart sl.carts cartId = some cart := by rw [hcarts]; exact hc
  by_cases hall : cart.products.all (lineFulfillable s.products)
  · have hnil : notProcessedOf s.products cart.products = [] :=
      (notProcessedOf_eq_nil_iff _ _).mpr hall
    rw [hnil]
    rw [if_neg (by simp)]
    rw [if_pos (by simp)]
    refine ⟨_, _, { cart with status := CartStatus.completed }, rfl, ?_, ?_, ?_⟩
    · unfold CartDAO.updateStatus
      rw [hfc]
      dsimp only
      rw [findCart_replaceCart _ _ _ _ (by dsimp only; exact hcid)]
      rw [if_pos ⟨rfl, by rw [hfc]; rfl⟩]
    · dsimp only
      exact (List.filter_eq_self.mpr
        (fun it hit => List.all_eq_true.mp hall it hit)).symm
    · dsimp only
      rw [if_pos hall]
  · have hne : notProcessedOf s.products cart.products ≠ [] :=
      fun hcon => hall ((notProcessedOf_eq_nil_iff _ _).mp hcon)
    have hlen : 0 < (notProcessedOf s.products cart.products).length :=
      List.length_pos.mpr hne
    rw [if_pos hlen]
    have hbeq : ((notProcessedOf s.products cart.products).length == 0) = false := by
      simpa using Nat.pos_iff_ne_zero.mp hlen
    rw [if_neg (by rw [hbeq]; simp)]
    have hkept : cart.products.filter
        (fun it => (processedOf s.products cart.products).any
          (fun p => p.product == it.product))
        = cart.products.filter (lineFulfillable s.products) :=
      List.filter_congr
        (fun it hit => processedOf_any_eq s.products cart.products hnd hit)
    rw [hkept]
    have hfc2 : findCart (replaceCart sl.carts cartId
        { cart with products := cart.products.filter (lineFulfillable s.products) }) cartId
        = some { cart with products := cart.products.filter (lineFulfillable s.products) } := by
      rw [findCart_replaceCart _ _ _ _ (by dsimp only; exact hcid)]
      rw [if_pos ⟨rfl, by rw [hfc]; rfl⟩]
    refine ⟨_, _, { cart with products := cart.products.filter (lineFulfillable s.products), status := CartStatus.active }, rfl, ?_, ?_, ?_⟩
    · unfold CartDAO.updateStatus
      dsimp only
      rw [hfc2]
      dsimp only
      rw [findCart_replaceCart _ _ _ _ (by dsimp only; exact hcid)]
      rw [if_pos ⟨rfl, by rw [hfc2]; rfl⟩]
    · rfl
    · dsimp only
      rw [if_neg hall]

/-- Claim C3, counterexample: purchasing a cart with no lines does not
fail with a cart-empty error — it succeeds with an empty result and even
marks the cart completed.  The emptiness and active-status checks live
only in the boundary handler. -/
theorem purchase_empty_cart_cex :
    CartRepository.purchase
      { products := [],
        carts := [{ id := 1, user := 1, products := [], totalPrice := 0,
                    status := CartStatus.active }],
        nextCartId := 2 } 1
    = Except.ok ({ productsProcessed := [], productsNotProcessed := [],
                   totalAmount := 0, cartId := 1 },
        { products := [],
          carts := [{ id := 1, user := 1, products := [], totalPrice := 0,
                      status := CartStatus.completed }],
          nextCartId := 2 }) := rfl

/-- Claim C3, amended: purchase re-validates only cart existence, failing
with the cart-not-found error when the id does not resolve; it performs
no emptiness or status re-check — a cart with no lines is processed
successfully (empty result, total 0), and a cart of any status whose
lines resolve is processed successfully as well. -/
theorem purchase_revalidates_only_existence (s : State) (cartId : Nat) :
    (findCart s.carts cartId = none →
      CartRepository.purchase s cartId = Except.error CartError.cartNotFound) ∧
    (∀ cart, findCart s.carts cartId = some cart → cart.products = [] →
      ∃ s1, CartRepository.purchase s cartId =
        Except.ok ({ productsProcessed := [], productsNotProcessed := [],
                     totalAmount := 0, cartId := cartId }, s1)) ∧
    (∀ cart, findCart s.carts cartId = some cart →
      (∀ it ∈ cart.products, (findProduct s.products it.product).isSome) →
      ∃ r s1, CartRepository.purchase s cartId = Except.ok (r, s1)) := by
  refine ⟨?_, ?_, ?_⟩
  · intro h
    unfold CartRepository.purchase
    rw [h]
  · intro cart hc hempty
    unfold CartRepository.purchase
    rw [hc]
    dsimp only
    rw [hempty]
    exact ⟨_, rfl⟩
  · intro cart hc hres
    unfold CartRepository.purchase
    rw [hc]
    dsimp only
    obtain ⟨sl, hloop, hcs, hnx, hpr, hst⟩ :=
      purchaseLoop_spec s cart.products s [] [] hres (fun _ => rfl)
    rw [hloop]
    exact ⟨_, _, rfl⟩

/-- Witness for the amended C3 theorem: a missing cart id, an empty active
cart, and a completed cart with one resolving line. -/
theorem purchase_revalidates_only_existence_witness :
    CartRepository.purchase { products := [], carts := [], nextCartId := 1 } 1
        = Except.error CartError.cartNotFound ∧
    (∃ s1, CartRepository.purchase
        { products := [],
          carts := [{ id := 1, user := 1, products := [], totalPrice := 0,
                      status := CartStatus.active }],
          nextCartId := 2 } 1
      = Except.ok ({ productsProcessed := [], productsNotProcessed := [],
                     totalAmount := 0, cartId := 1 }, s1)) ∧
    (∃ r s1, CartRepository.purchase
        { products := [{ id := 1, title := "P", price := 10, stock := 5 }],
          carts := [{ id := 1, user := 1,
                      products := [{ product := 1, quantity := 1, price := 10 }],
                      totalPrice := 10, status := CartStatus.completed }],
          nextCartId := 2 } 1
      = Except.ok (r, s1)) :=
  ⟨(purchase_revalidates_only_existence
      { products := [], carts := [], nextCartId := 1 } 1).1 rfl,
   (purchase_revalidates_only_existence
      { products := [],
        carts := [{ id := 1, user := 1, products := [], totalPrice := 0,
                    status := CartStatus.active }],
        nextCartId := 2 } 1).2.1
      { id := 1, user := 1, products := [], totalPrice := 0,
        status := CartStatus.active } (by decide) (by decide),
   (purchase_revalidates_only_existence
      { products := [{ id := 1, title := "P", price := 10, stock := 5 }],
        carts := [{ id := 1, user := 1,
                    products := [{ product := 1, quantity := 1, price := 10 }],
                    totalPrice := 10, status := CartStatus.completed }],
        nextCartId := 2 } 1).2.2
      { id := 1, user := 1,
        products := [{ product := 1, quantity := 1, price := 10 }],
        totalPrice := 10, status := CartStatus.completed } (by decide) (by decide)⟩

theorem totalsOk_daoAddProduct (s : State) (cid pid q : Nat) (price : Int)
    (h : TotalsOk s) : TotalsOk (CartDAO.addProduct s cid pid q price) := by
  unfold CartDAO.addProduct
  cases hc : findCart s.carts cid with
  | none => exact h
  | some cart =>
    dsimp only
    unfold TotalsOk
    intro c hmem
    rcases mem_replaceCart hmem with hceq | hcs
    · subst hceq; rfl
    · exact h c hcs

theorem totalsOk_daoUpdateQuantity (s : State) (cid pid q : Nat)
    (h : TotalsOk s) : TotalsOk (CartDAO.updateProductQuantity s cid pid q) := by
  unfold CartDAO.updateProductQuantity
  cases hc : findCart s.carts cid with
  | none => exact h
  | some cart =>
    dsimp only
    cases hl : findLine cart.products pid with
    | none => exact h
    | some item =>
      unfold TotalsOk
      intro c hmem
      rcases mem_replaceCart hmem with hceq | hcs
      · subst hceq; rfl
      · exact h c hcs

theorem totalsOk_daoRemoveProduct (s : State) (cid pid : Nat)
    (h : TotalsOk s) : TotalsOk (CartDAO.removeProduct s cid pid) := by
  unfold CartDAO.removeProduct
  cases hc : findCart s.carts cid with
  | none => exact h
  | some cart =>
    unfold TotalsOk
    intro c hmem
    rcases mem_replaceCart hmem with hceq | hcs
    · subst hceq; rfl
    · exact h c hcs

theorem totalsOk_daoClearCart (s : State) (cid : Nat)
    (h : TotalsOk s) : TotalsOk (CartDAO.clearCart s cid) := by
  unfold CartDAO.clearCart
  cases hc : findCart s.carts cid with
  | none => exact h
  | some cart =>
    unfold TotalsOk
    intro c hmem
    rcases mem_replaceCart hmem with hceq | hcs
    · subst hceq; rfl
    · exact h c hcs

theorem totalsOk_repoAdd (s : State) (uid pid q : Nat) (s1 : State)
    (h : TotalsOk s)
    (hok : CartRepository.addProduct s uid pid q = Except.ok s1) : TotalsOk s1 := by
  unfold CartRepository.addProduct at hok
  cases hp : findProduct s.products pid with
  | none => rw [hp] at hok; cases hok
  | some product =>
    rw [hp] at hok
    dsimp only at hok
    by_cases h1 : ProductRepository.hasStock s.products pid (q : Int) = true
    · rw [if_pos h1] at hok
      cases hf : findActiveCart s.carts uid with
      | some cart =>
        rw [hf] at hok
        dsimp only [Option.getD] at hok
        rw [findLinePopulated_eq_none] at hok
        try dsimp only at hok
        have hs := Except.ok.inj hok
        subst hs
        exact totalsOk_daoAddProduct _ _ _ _ _ h
      | none =>
        rw [hf] at hok
        dsimp only [Option.getD] at hok
        rw [findLinePopulated_eq_none] at hok
        try dsimp only at hok
        have hs := Except.ok.inj hok
        subst hs
        refine totalsOk_daoAddProduct _ _ _ _ _ ?_
        unfold TotalsOk
        intro c hmem
        dsimp only at hmem
        rcases List.mem_append.mp hmem with hcs | hcnew
        · exact h c hcs
        · rw [List.mem_singleton.mp hcnew]
          rfl
    · rw [if_neg h1] at hok; cases hok

theorem totalsOk_repoUpdate (s : State) (cid pid q : Nat) (s1 : State)
    (h : TotalsOk s)
    (hok : CartRepository.updateProductQuantity s cid pid q = Except.ok s1) :
    TotalsOk s1 := by
  unfold CartRepository.updateProductQuantity at hok
  cases hc : findCart s.carts cid with
  | none => rw [hc] at hok; cases hok
  | some cart =>
    rw [hc] at hok
    dsimp only at hok
    cases hl : findLine cart.products pid with
    | none => rw [hl] at hok; cases hok
    | some item =>
      rw [hl] at hok
      dsimp only at hok
      by_cases h1 : (0 : Int) < (q : Int) - (item.quantity : Int)
      · rw [if_pos h1] at hok
        by_cases h2 : ProductRepository.hasStock s.products pid
            ((q : Int) - (item.quantity : Int)) = true
        · rw [if_pos h2] at hok
          have hs := Except.ok.inj hok
          subst hs
          exact totalsOk_daoUpdateQuantity _ _ _ _ h
        · rw [if_neg h2] at hok; cases hok
      · rw [if_neg h1] at hok
        by_cases h3 : (q : Int) - (item.quantity : Int) < 0
        · rw [if_pos h3] at hok
          have hs := Except.ok.inj hok
          subst hs
          exact totalsOk_daoUpdateQuantity _ _ _ _ h
        · rw [if_neg h3] at hok
          have hs := Except.ok.inj hok
          subst hs
          exact totalsOk_daoUpdateQuantity _ _ _ _ h

theorem totalsOk_repoRemove (s : State) (cid pid : Nat) (s1 : State)
    (h : TotalsOk s)
    (hok : CartRepository.removeProduct s cid pid = Except.ok s1) : TotalsOk s1 := by
  unfold CartRepository.removeProduct at hok
  cases hc : findCart s.carts cid with
  | none => rw [hc] at hok; cases hok
  | some cart =>
    rw [hc] at hok
    dsimp only at hok
    have hs := Except.ok.inj hok
    subst hs
    cases hl : findLine cart.products pid <;>
      exact totalsOk_daoRemoveProduct _ _ _ h

theorem totalsOk_repoClear (s : State) (cid : Nat) (s1 : State)
    (h : TotalsOk s)
    (hok : CartRepository.clearCart s cid = Except.ok s1) : TotalsOk s1 := by
  unfold CartRepository.clearCart at hok
  cases hc : findCart s.carts cid with
  | none => rw [hc] at hok; cases hok
  | some cart =>
    rw [hc] at hok
    dsimp only at hok
    have hs := Except.ok.inj hok
    subst hs
    exact totalsOk_daoClearCart _ _ h

theorem updateStatus_find (s : State) (cid : Nat) (cart : Cart) (st : CartStatus)
    (hc : findCart s.carts cid = some cart) :
    findCart (CartDAO.updateStatus s cid st).carts cid
      = some { cart with status := st } := by
  unfold CartDAO.updateStatus
  rw [hc]
  dsimp only
  rw [findCart_replaceCart _ _ _ _ (by dsimp only; exact findCart_id hc)]
  rw [if_pos ⟨rfl, by rw [hc]; rfl⟩]

theorem purchase_total_unchanged (s : State) (cid : Nat) (cart : Cart)
    (r : PurchaseResult) (s1 : State)
    (hc : findCart s.carts cid = some cart)
    (hok : CartRepository.purchase s cid = Except.ok (r, s1)) :
    ∃ cart1, findCart s1.carts cid = some cart1 ∧
      cart1.totalPrice = cart.totalPrice := by
  unfold CartRepository.purchase at hok
  rw [hc] at hok
  dsimp only at hok
  cases hloop : purchaseLoop s cart.products s [] [] with
  | error e => rw [hloop] at hok; cases hok
  | ok res =>
    obtain ⟨pr, npr, sl⟩ := res
    rw [hloop] at hok
    dsimp only at hok
    obtain ⟨hclz, _⟩ := purchaseLoop_carts s cart.products s [] [] (pr, npr, sl) hloop
    have hfc : findCart sl.carts cid = some cart := by
      rw [hclz]; exact hc
    by_cases hlen : npr.length > 0
    · rw [if_pos hlen] at hok
      have hfc2 : findCart (replaceCart sl.carts cid
            { cart with
              products := cart.products.filter
                  (fun it => pr.any (fun p => p.product == it.product)) }) cid
          = some { cart with
              products := cart.products.filter
                  (fun it => pr.any (fun p => p.product == it.product)) } := by
        rw [findCart_replaceCart _ _ _ _ (by dsimp only; exact findCart_id hc)]
        rw [if_pos ⟨rfl, by rw [hfc]; rfl⟩]
      have hs := Except.ok.inj hok
      injection hs with h1 h2
      subst h2
      refine ⟨_, updateStatus_find _ _ _ _ hfc2, rfl⟩
    · rw [if_neg hlen] at hok
      have hs := Except.ok.inj hok
      injection hs with h1 h2
      subst h2
      refine ⟨_, updateStatus_find _ _ _ _ hfc, rfl⟩

/-- Claim C2, counterexample: purchasing a cart holding a fulfillable and
an unfulfillable line removes the unfulfillable line but keeps the stored
totalPrice at its pre-purchase value 24, while the sum over the remaining
lines is 10 — the stored total is not recomputed after the removal. -/
theorem purchase_total_stale_cex :
    CartRepository.purchase
      { products := [{ id := 1, title := "A", price := 10, stock := 5 }, { id := 2, title := "B", price := 7, stock := 0 }],
        carts := [{ id := 1, user := 1, products := [{ product := 1, quantity := 1, price := 10 }, { product := 2, quantity := 2, price := 7 }], totalPrice := 24, status := CartStatus.active }],
        nextCartId := 2 } 1
      = Except.ok
        ({ productsProcessed := [{ product := 1, title := "A", quantity := 1, price := 10, subtotal := 10 }],
           productsNotProcessed := [{ product := 2, title := "B", requestedQuantity := 2, availableStock := 0 }],
           totalAmount := 10, cartId := 1 },
         { products := [{ id := 1, title := "A", price := 10, stock := 5 }, { id := 2, title := "B", price := 7, stock := 2 }],
           carts := [{ id := 1, user := 1, products := [{ product := 1, quantity := 1, price := 10 }], totalPrice := 24, status := CartStatus.active }],
           nextCartId := 2 }) ∧
    calcTotal [{ product := 1, quantity := 1, price := 10 }] = 10 :=
  ⟨rfl, rfl⟩

/-- Claim C2, amended: after addProduct, updateProductQuantity,
removeProduct and clearCart, every stored cart totalPrice equals the sum
of quantity times snapshot price over its current lines; purchase,
however, does not recompute the stored total when it removes
unfulfillable lines — the purchased cart keeps its pre-purchase
totalPrice unchanged. -/
theorem cart_totals_after_mutations (s : State) (h : TotalsOk s) :
    (∀ uid pid q s1, CartRepository.addProduct s uid pid q = Except.ok s1 →
      TotalsOk s1) ∧
    (∀ cid pid q s1, CartRepository.updateProductQuantity s cid pid q = Except.ok s1 →
      TotalsOk s1) ∧
    (∀ cid pid s1, CartRepository.removeProduct s cid pid = Except.ok s1 →
      TotalsOk s1) ∧
    (∀ cid s1, CartRepository.clearCart s cid = Except.ok s1 → TotalsOk s1) ∧
    (∀ cid cart r s1, findCart s.carts cid = some cart →
      CartRepository.purchase s cid = Except.ok (r, s1) →
      ∃ cart1, findCart s1.carts cid = some cart1 ∧
        cart1.totalPrice = cart.totalPrice) :=
  ⟨fun uid pid q s1 hok => totalsOk_repoAdd s uid pid q s1 h hok,
   fun cid pid q s1 hok => totalsOk_repoUpdate s cid pid q s1 h hok,
   fun cid pid s1 hok => totalsOk_repoRemove s cid pid s1 h hok,
   fun cid s1 hok => totalsOk_repoClear s cid s1 h hok,
   fun cid cart r s1 hc hok => purchase_total_unchanged s cid cart r s1 hc hok⟩

/-- Witness for the amended C2 theorem: an addProduct call on a fresh
state keeps the invariant, and a partial purchase keeps the pre-purchase
total 24 on the stored cart. -/
theorem cart_totals_after_mutations_witness :
    TotalsOk
      { products := [{ id := 1, title := "P", price := 10, stock := 2 }],
        carts := [{ id := 1, user := 7, products := [{ product := 1, quantity := 3, price := 10 }], totalPrice := 30, status := CartStatus.active }],
        nextCartId := 2 } ∧
    (∃ cart1, findCart
        ({ products := [{ id := 1, title := "A", price := 10, stock := 5 }, { id := 2, title := "B", price := 7, stock := 2 }],
           carts := [{ id := 1, user := 1, products := [{ product := 1, quantity := 1, price := 10 }], totalPrice := 24, status := CartStatus.active }],
           nextCartId := 2 } : State).carts 1 = some cart1 ∧
      cart1.totalPrice = ({ id := 1, user := 1, products := [{ product := 1, quantity := 1, price := 10 }, { product := 2, quantity := 2, price := 7 }], totalPrice := 24, status := CartStatus.active } : Cart).totalPrice) :=
  ⟨(cart_totals_after_mutations
      { products := [{ id := 1, title := "P", price := 10, stock := 5 }], carts := [], nextCartId := 1 }
      (by unfold TotalsOk; decide)).1 7 1 3
      { products := [{ id := 1, title := "P", price := 10, stock := 2 }],
        carts := [{ id := 1, user := 7, products := [{ product := 1, quantity := 3, price := 10 }], totalPrice := 30, status := CartStatus.active }],
        nextCartId := 2 } rfl,
   (cart_totals_after_mutations
      { products := [{ id := 1, title := "A", price := 10, stock := 5 }, { id := 2, title := "B", price := 7, stock := 0 }],
        carts := [{ id := 1, user := 1, products := [{ product := 1, quantity := 1, price := 10 }, { product := 2, quantity := 2, price := 7 }], totalPrice := 24, status := CartStatus.active }],
        nextCartId := 2 }
      (by unfold TotalsOk; decide)).2.2.2.2 1
      { id := 1, user := 1, products := [{ product := 1, quantity := 1, price := 10 }, { product := 2, quantity := 2, price := 7 }], totalPrice := 24, status := CartStatus.active }
      { productsProcessed := [{ product := 1, title := "A", quantity := 1, price := 10, subtotal := 10 }],
        productsNotProcessed := [{ product := 2, title := "B", requestedQuantity := 2, availableStock := 0 }],
        totalAmount := 10, cartId := 1 }
      { products := [{ id := 1, title := "A", price := 10, stock := 5 }, { id := 2, title := "B", price := 7, stock := 2 }],
        carts := [{ id := 1, user := 1, products := [{ product := 1, quantity := 1, price := 10 }], totalPrice := 24, status := CartStatus.active }],
        nextCartId := 2 }
      (by decide) rfl⟩

theorem filter_ne_of_findLine_none (items : List LineItem) (pid : Nat)
    (h : findLine items pid = none) :
    items.filter (fun it => !(it.product == pid)) = items := by
  rw [List.filter_eq_self]
  intro it hit
  unfold findLine at h
  have := List.find?_eq_none.mp h it hit
  simpa using this

/-- Claim C8, counterexample: removing a product that has no line in the
cart does not fail — the call succeeds and returns the cart unchanged
(no LineNotFound error exists on this path). -/
theorem removeProduct_absent_ok_cex :
    CartRepository.removeProduct
      { products := [{ id := 1, title := "P", price := 10, stock := 5 }],
        carts := [{ id := 1, user := 1, products := [], totalPrice := 0, status := CartStatus.active }],
        nextCartId := 2 } 1 2
      = Except.ok
        { products := [{ id := 1, title := "P", price := 10, stock := 5 }],
          carts := [{ id := 1, user := 1, products := [], totalPrice := 0, status := CartStatus.active }],
          nextCartId := 2 } := rfl

/-- Claim C8, amended: when a line for the product exists, removeProduct
increments the inventory by the full line quantity, deletes the line and
recomputes the stored total; when no line exists it does not fail — it
succeeds leaving the inventory and the cart lines unchanged (the total is
recomputed over the unchanged lines). -/
theorem removeProduct_spec (s : State) (cartId pid : Nat) (cart : Cart)
    (hc : findCart s.carts cartId = some cart) :
    (∀ item, findLine cart.products pid = some item →
      ∃ s1, CartRepository.removeProduct s cartId pid = Except.ok s1 ∧
        s1.products = ProductDAO.incrementStock s.products pid (item.quantity : Int) ∧
        findCart s1.carts cartId = some
          { cart with
            products := cart.products.filter (fun it => !(it.product == pid)),
            totalPrice := calcTotal (cart.products.filter (fun it => !(it.product == pid))) }) ∧
    (findLine cart.products pid = none →
      ∃ s1, CartRepository.removeProduct s cartId pid = Except.ok s1 ∧
        s1.products = s.products ∧
        findCart s1.carts cartId = some
          { cart with products := cart.products, totalPrice := calcTotal cart.products }) := by
  constructor
  · intro item hl
    unfold CartRepository.removeProduct
    rw [hc]
    dsimp only
    rw [hl]
    dsimp only
    unfold CartDAO.removeProduct
    dsimp only
    rw [hc]
    dsimp only
    refine ⟨_, rfl, rfl, ?_⟩
    rw [findCart_replaceCart _ _ _ _ (by dsimp only; exact findCart_id hc)]
    rw [if_pos ⟨rfl, by rw [hc]; rfl⟩]
  · intro hl
    unfold CartRepository.removeProduct
    rw [hc]
    dsimp only
    rw [hl]
    dsimp only
    unfold CartDAO.removeProduct
    rw [hc]
    dsimp only
    rw [filter_ne_of_findLine_none cart.products pid hl]
    refine ⟨_, rfl, rfl, ?_⟩
    rw [findCart_replaceCart _ _ _ _ (by dsimp only; exact findCart_id hc)]
    rw [if_pos ⟨rfl, by rw [hc]; rfl⟩]

/-- Witness for the amended C8 theorem: one cart where the line exists and
one where it does not. -/
theorem removeProduct_spec_witness :
    (∃ s1, CartRepository.removeProduct
        { products := [{ id := 1, title := "P", price := 10, stock := 3 }],
          carts := [{ id := 1, user := 1, products := [{ product := 1, quantity := 2, price := 10 }], totalPrice := 20, status := CartStatus.active }],
          nextCartId := 2 } 1 1 = Except.ok s1 ∧
      s1.products = ProductDAO.incrementStock
        [{ id := 1, title := "P", price := 10, stock := 3 }] 1 ((2 : Nat) : Int) ∧
      findCart s1.carts 1 = some
        { id := 1, user := 1,
          products := [{ product := 1, quantity := 2, price := 10 }].filter (fun it => !(it.product == 1)),
          totalPrice := calcTotal ([{ product := 1, quantity := 2, price := 10 }].filter (fun it => !(it.product == 1))),
          status := CartStatus.active }) ∧
    (∃ s1, CartRepository.removeProduct
        { products := [{ id := 1, title := "P", price := 10, stock := 5 }],
          carts := [{ id := 1, user := 1, products := [], totalPrice := 0, status := CartStatus.active }],
          nextCartId := 2 } 1 2 = Except.ok s1 ∧
      s1.products = [{ id := 1, title := "P", price := 10, stock := 5 }] ∧
      findCart s1.carts 1 = some
        { id := 1, user := 1, products := ([] : List LineItem), totalPrice := calcTotal ([] : List LineItem), status := CartStatus.active }) :=
  ⟨(removeProduct_spec
      { products := [{ id := 1, title := "P", price := 10, stock := 3 }],
        carts := [{ id := 1, user := 1, products := [{ product := 1, quantity := 2, price := 10 }], totalPrice := 20, status := CartStatus.active }],
        nextCartId := 2 } 1 1
      { id := 1, user := 1, products := [{ product := 1, quantity := 2, price := 10 }], totalPrice := 20, status := CartStatus.active }
      (by decide)).1 { product := 1, quantity := 2, price := 10 } (by decide),
   (removeProduct_spec
      { products := [{ id := 1, title := "P", price := 10, stock := 5 }],
        carts := [{ id := 1, user := 1, products := [], totalPrice := 0, status := CartStatus.active }],
        nextCartId := 2 } 1 2
      { id := 1, user := 1, products := [], totalPrice := 0, status := CartStatus.active }
      (by decide)).2 (by decide)⟩

theorem hasStock_true_iff (ps : List Product) (pid : Nat) (qty : Int)
    {p : Product} (h : findProduct ps pid = some p) :
    ProductRepository.hasStock ps pid qty = true ↔ qty ≤ p.stock := by
  unfold ProductRepository.hasStock
  rw [h]
  simp

theorem addProduct_never_insufficientStockTotal (s : State) (uid pid q : Nat) :
    CartRepository.addProduct s uid pid q
      ≠ Except.error CartError.insufficientStockTotal := by
  unfold CartRepository.addProduct
  cases hp : findProduct s.products pid with
  | none => intro h; cases h
  | some product =>
    dsimp only
    by_cases h1 : ProductRepository.hasStock s.products pid ((q : Nat) : Int) = true
    · rw [if_pos h1]
      cases hf : findActiveCart s.carts uid with
      | some cart =>
        dsimp only [Option.getD]
        rw [findLinePopulated_eq_none]
        intro h; cases h
      | none =>
        dsimp only [Option.getD]
        rw [findLinePopulated_eq_none]
        intro h; cases h
    · rw [if_neg h1]
      intro h; cases h

/-- Claim C6, counterexample: the combined-quantity re-check is dead code.
The cart handed to addProduct comes from findActiveByUser, which populates
products.product, so the existing-line lookup compares a hydrated
document's string form against the id string and never matches. With
stock 5 and an existing line of quantity 3, requesting 3 more (combined
6 > 5) does not fail as the claim asserts: the call succeeds, stock is
decremented by 3 to 2 and the DAO upsert bumps the line to 6. -/
theorem addProduct_combined_check_dead_cex :
    CartRepository.addProduct
      { products := [{ id := 1, title := "P", price := 12, stock := 5 }],
        carts := [{ id := 1, user := 7, products := [{ product := 1, quantity := 3, price := 10 }], totalPrice := 30, status := CartStatus.active }],
        nextCartId := 2 } 7 1 3
      = Except.ok
        { products := [{ id := 1, title := "P", price := 12, stock := 2 }],
          carts := [{ id := 1, user := 7, products := [{ product := 1, quantity := 6, price := 10 }], totalPrice := 60, status := CartStatus.active }],
          nextCartId := 2 } := rfl

/-- Claim C6, amended: when addProduct targets a product already present
in the user's active cart, the repository-level existing-line lookup runs
on the populated cart and never matches, so no combined-quantity re-check
happens and the InsufficientStockTotal error is unreachable on every
input; the only stock validation is against the requested increment
alone — the call fails with plain InsufficientStock exactly when stock is
below the increment, and otherwise succeeds even when existing plus
requested exceeds stock, decrementing inventory by the requested
increment only while the DAO upsert bumps the line to existing plus
requested with its snapshot price unchanged. -/
theorem addProduct_no_combined_check (s : State) (uid pid q : Nat)
    (prod : Product) (cart : Cart) (item : LineItem)
    (hnd : (s.carts.map (fun c => c.id)).Nodup)
    (hp : findProduct s.products pid = some prod)
    (hcart : findActiveCart s.carts uid = some cart)
    (hline : findLine cart.products pid = some item) :
    findLinePopulated s.products cart.products pid = none ∧
    (∀ s0 uid0 pid0 q0, CartRepository.addProduct s0 uid0 pid0 q0
        ≠ Except.error CartError.insufficientStockTotal) ∧
    ((prod.stock < (q : Int)) →
      CartRepository.addProduct s uid pid q
        = Except.error CartError.insufficientStock) ∧
    (((q : Int) ≤ prod.stock) →
      ∃ s1, CartRepository.addProduct s uid pid q = Except.ok s1 ∧
        stockOf s1.products pid = prod.stock - (q : Int) ∧
        ∃ cart1, findCart s1.carts cart.id = some cart1 ∧
          findLine cart1.products pid = some
            { item with quantity := item.quantity + q }) := by
  have hfcid : findCart s.carts cart.id = some cart :=
    findCart_of_mem_nodup (findActiveCart_mem hcart) hnd
  refine ⟨findLinePopulated_eq_none _ _ _,
    fun s0 uid0 pid0 q0 => addProduct_never_insufficientStockTotal s0 uid0 pid0 q0,
    ?_, ?_⟩
  · intro hover
    unfold CartRepository.addProduct
    rw [hp]
    dsimp only
    rw [if_neg (by rw [hasStock_true_iff s.products pid _ hp]; omega)]
  · intro hle
    unfold CartRepository.addProduct
    rw [hp]
    dsimp only
    rw [if_pos ((hasStock_true_iff s.products pid _ hp).mpr hle)]
    rw [hcart]
    dsimp only [Option.getD]
    rw [findLinePopulated_eq_none]
    dsimp only
    unfold CartDAO.addProduct
    dsimp only
    rw [hfcid]
    dsimp only
    rw [hline]
    dsimp only
    refine ⟨_, rfl, ?_, ?_⟩
    · dsimp only
      rw [stockOf_decrementStock]
      rw [if_pos ⟨rfl, by rw [hp]; rfl⟩]
      unfold stockOf
      rw [hp]
    · refine ⟨{ cart with products := bumpLine cart.products pid q, totalPrice := calcTotal (bumpLine cart.products pid q) }, ?_, ?_⟩
      · rw [findCart_replaceCart _ _ _ _ (by rfl)]
        rw [if_pos ⟨rfl, by rw [hfcid]; rfl⟩]
      · dsimp only
        exact findLine_bumpLine cart.products pid q hline

/-- Witness for the amended C6 theorem: stock 5, existing line quantity
3; adding 3 more (combined 6 > 5) succeeds with stock decremented by 3
and the line bumped to 6 at its unchanged snapshot price, while adding 7
fails with the plain InsufficientStock error. -/
theorem addProduct_no_combined_check_witness :
    (∃ s1, CartRepository.addProduct
          { products := [{ id := 1, title := "P", price := 12, stock := 5 }],
            carts := [{ id := 1, user := 7, products := [{ product := 1, quantity := 3, price := 10 }], totalPrice := 30, status := CartStatus.active }],
            nextCartId := 2 } 7 1 3 = Except.ok s1 ∧
        stockOf s1.products 1 = (5 : Int) - ((3 : Nat) : Int) ∧
        ∃ cart1, findCart s1.carts 1 = some cart1 ∧
          findLine cart1.products 1 = some { product := 1, quantity := 3 + 3, price := 10 }) ∧
    CartRepository.addProduct
        { products := [{ id := 1, title := "P", price := 12, stock := 5 }],
          carts := [{ id := 1, user := 7, products := [{ product := 1, quantity := 3, price := 10 }], totalPrice := 30, status := CartStatus.active }],
          nextCartId := 2 } 7 1 7
      = Except.error CartError.insufficientStock :=
  ⟨(addProduct_no_combined_check
      { products := [{ id := 1, title := "P", price := 12, stock := 5 }],
        carts := [{ id := 1, user := 7, products := [{ product := 1, quantity := 3, price := 10 }], totalPrice := 30, status := CartStatus.active }],
        nextCartId := 2 } 7 1 3
      { id := 1, title := "P", price := 12, stock := 5 }
      { id := 1, user := 7, products := [{ product := 1, quantity := 3, price := 10 }], totalPrice := 30, status := CartStatus.active }
      { product := 1, quantity := 3, price := 10 }
      (by decide) (by decide) (by decide) (by decide)).2.2.2 (by decide),
   (addProduct_no_combined_check
      { products := [{ id := 1, title := "P", price := 12, stock := 5 }],
        carts := [{ id := 1, user := 7, products := [{ product := 1, quantity := 3, price := 10 }], totalPrice := 30, status := CartStatus.active }],
        nextCartId := 2 } 7 1 7
      { id := 1, title := "P", price := 12, stock := 5 }
      { id := 1, user := 7, products := [{ product := 1, quantity := 3, price := 10 }], totalPrice := 30, status := CartStatus.active }
      { product := 1, quantity := 3, price := 10 }
      (by decide) (by decide) (by decide) (by decide)).2.2.1 (by decide)⟩

/-- Witness for the C1 theorem at a two-line cart with one fulfillable and
one unfulfillable line. -/
theorem purchase_partition_witness :
    ∃ s1, CartRepository.purchase
        { products := [{ id := 1, title := "A", price := 10, stock := 5 }, { id := 2, title := "B", price := 7, stock := 0 }],
          carts := [{ id := 1, user := 1, products := [{ product := 1, quantity := 1, price := 10 }, { product := 2, quantity := 2, price := 7 }], totalPrice := 24, status := CartStatus.active }],
          nextCartId := 2 } 1 =
      Except.ok
        ({ productsProcessed := processedOf
             [{ id := 1, title := "A", price := 10, stock := 5 }, { id := 2, title := "B", price := 7, stock := 0 }]
             [{ product := 1, quantity := 1, price := 10 }, { product := 2, quantity := 2, price := 7 }],
           productsNotProcessed := notProcessedOf
             [{ id := 1, title := "A", price := 10, stock := 5 }, { id := 2, title := "B", price := 7, stock := 0 }]
             [{ product := 1, quantity := 1, price := 10 }, { product := 2, quantity := 2, price := 7 }],
           totalAmount := ((processedOf
             [{ id := 1, title := "A", price := 10, stock := 5 }, { id := 2, title := "B", price := 7, stock := 0 }]
             [{ product := 1, quantity := 1, price := 10 }, { product := 2, quantity := 2, price := 7 }]).map
               (fun p => p.subtotal)).sum,
           cartId := 1 }, s1) ∧
      ∀ pid, stockOf s1.products pid
        = stockOf [{ id := 1, title := "A", price := 10, stock := 5 }, { id := 2, title := "B", price := 7, stock := 0 }] pid
          + (returnedFor
              [{ id := 1, title := "A", price := 10, stock := 5 }, { id := 2, title := "B", price := 7, stock := 0 }]
              [{ product := 1, quantity := 1, price := 10 }, { product := 2, quantity := 2, price := 7 }] pid : Int) :=
  purchase_partition
    { products := [{ id := 1, title := "A", price := 10, stock := 5 }, { id := 2, title := "B", price := 7, stock := 0 }],
      carts := [{ id := 1, user := 1, products := [{ product := 1, quantity := 1, price := 10 }, { product := 2, quantity := 2, price := 7 }], totalPrice := 24, status := CartStatus.active }],
      nextCartId := 2 } 1
    { id := 1, user := 1, products := [{ product := 1, quantity := 1, price := 10 }, { product := 2, quantity := 2, price := 7 }], totalPrice := 24, status := CartStatus.active }
    (by decide) (by decide)

/-- Witness for the C7 theorem at the same partially fulfillable cart. -/
theorem purchase_status_lines_witness :
    ∃ r s1 cart1, CartRepository.purchase
        { products := [{ id := 1, title := "A", price := 10, stock := 5 }, { id := 2, title := "B", price := 7, stock := 0 }],
          carts := [{ id := 1, user := 1, products := [{ product := 1, quantity := 1, price := 10 }, { product := 2, quantity := 2, price := 7 }], totalPrice := 24, status := CartStatus.active }],
          nextCartId := 2 } 1 = Except.ok (r, s1) ∧
      findCart s1.carts 1 = some cart1 ∧
      cart1.products = [{ product := 1, quantity := 1, price := 10 }, { product := 2, quantity := 2, price := 7 }].filter
        (lineFulfillable [{ id := 1, title := "A", price := 10, stock := 5 }, { id := 2, title := "B", price := 7, stock := 0 }]) ∧
      cart1.status = (if ([{ product := 1, quantity := 1, price := 10 }, { product := 2, quantity := 2, price := 7 }] : List LineItem).all
          (lineFulfillable [{ id := 1, title := "A", price := 10, stock := 5 }, { id := 2, title := "B", price := 7, stock := 0 }])
        then CartStatus.completed else CartStatus.active) :=
  purchase_status_lines
    { products := [{ id := 1, title := "A", price := 10, stock := 5 }, { id := 2, title := "B", price := 7, stock := 0 }],
      carts := [{ id := 1, user := 1, products := [{ product := 1, quantity := 1, price := 10 }, { product := 2, quantity := 2, price := 7 }], totalPrice := 24, status := CartStatus.active }],
      nextCartId := 2 } 1
    { id := 1, user := 1, products := [{ product := 1, quantity := 1, price := 10 }, { product := 2, quantity := 2, price := 7 }], totalPrice := 24, status := CartStatus.active }
    (by decide) (by decide) (by decide)

theorem not_mem_map_of_findLine_none (items : List LineItem) (pid : Nat)
    (h : findLine items pid = none) :
    pid ∉ items.map (fun it => it.product) := by
  intro hmem
  obtain ⟨it, hit, hpid⟩ := List.mem_map.mp hmem
  have := List.find?_eq_none.mp h it hit
  simp [hpid] at this

theorem daoAddProduct_products (s : State) (cid pid0 q : Nat) (price : Int) :
    (CartDAO.addProduct s cid pid0 q price).products = s.products := by
  unfold CartDAO.addProduct
  cases findCart s.carts cid <;> rfl

theorem daoAddProduct_active (s : State) (cid pid0 q : Nat) (price : Int)
    (hact : ∀ c ∈ s.carts, c.status = CartStatus.active) :
    ∀ c ∈ (CartDAO.addProduct s cid pid0 q price).carts,
      c.status = CartStatus.active := by
  unfold CartDAO.addProduct
  cases hc : findCart s.carts cid with
  | none => exact hact
  | some cart0 =>
    intro c hmem
    rcases mem_replaceCart hmem with hceq | hcs
    · subst hceq
      exact hact cart0 (findCart_mem hc)
    · exact hact c hcs

theorem daoAddProduct_nodup (s : State) (cid pid0 q : Nat) (price : Int)
    (hnd : ∀ c ∈ s.carts, (c.products.map (fun it => it.product)).Nodup) :
    ∀ c ∈ (CartDAO.addProduct s cid pid0 q price).carts,
      (c.products.map (fun it => it.product)).Nodup := by
  unfold CartDAO.addProduct
  cases hc : findCart s.carts cid with
  | none => exact hnd
  | some cart0 =>
    intro c hmem
    rcases mem_replaceCart hmem with hceq | hcs
    · subst hceq
      dsimp only
      cases hl : findLine cart0.products pid0 with
      | some it0 =>
        rw [bumpLine_map_product]
        exact hnd cart0 (findCart_mem hc)
      | none =>
        rw [List.map_append]
        rw [List.nodup_append]
        refine ⟨hnd cart0 (findCart_mem hc), by simp, ?_⟩
        intro x hx
        simp only [List.map_cons, List.map_nil, List.mem_singleton]
        intro hxe
        rw [hxe] at hx
        exact not_mem_map_of_findLine_none cart0.products pid0 hl hx
    · exact hnd c hcs

theorem daoAddProduct_reserved (s : State) (cid pid0 q : Nat) (price : Int)
    (pid : Nat)
    (hact : ∀ c ∈ s.carts, c.status = CartStatus.active)
    (cart0 : Cart) (hc : findCart s.carts cid = some cart0) :
    reservedSum (CartDAO.addProduct s cid pid0 q price).carts pid
      = reservedSum s.carts pid + (if pid0 = pid then q else 0) := by
  unfold CartDAO.addProduct
  rw [hc]
  dsimp only
  have hst0 : cart0.status = CartStatus.active := hact cart0 (findCart_mem hc)
  cases hl : findLine cart0.products pid0 with
  | some it0 =>
    dsimp only
    have hrepl := reservedSum_replaceCart s.carts cid { cart0 with products := bumpLine cart0.products pid0 q, totalPrice := calcTotal (bumpLine cart0.products pid0 q) } pid hc
    simp only [activeReserved, hst0, eq_self_iff_true, if_true] at hrepl
    have hbump := linesReserved_bumpLine cart0.products pid0 q pid hl
    rw [hst0]
    omega
  | none =>
    dsimp only
    have hrepl := reservedSum_replaceCart s.carts cid { cart0 with products := cart0.products ++ [{ product := pid0, quantity := q, price := price }], totalPrice := calcTotal (cart0.products ++ [{ product := pid0, quantity := q, price := price }]) } pid hc
    simp only [activeReserved, hst0, eq_self_iff_true, if_true] at hrepl
    have happ := linesReserved_append_one cart0.products pid0 q pid price
    rw [hst0]
    omega

theorem daoUpdateQuantity_products (s : State) (cid pid0 q : Nat) :
    (CartDAO.updateProductQuantity s cid pid0 q).products = s.products := by
  unfold CartDAO.updateProductQuantity
  cases hc : findCart s.carts cid with
  | none => rfl
  | some cart0 =>
    try dsimp only
    cases findLine cart0.products pid0 <;> rfl

theorem daoUpdateQuantity_active (s : State) (cid pid0 q : Nat)
    (hact : ∀ c ∈ s.carts, c.status = CartStatus.active) :
    ∀ c ∈ (CartDAO.updateProductQuantity s cid pid0 q).carts,
      c.status = CartStatus.active := by
  unfold CartDAO.updateProductQuantity
  cases hc : findCart s.carts cid with
  | none => exact hact
  | some cart0 =>
    try dsimp only
    cases hl : findLine cart0.products pid0 with
    | none => exact hact
    | some it0 =>
      intro c hmem
      rcases mem_replaceCart hmem with hceq | hcs
      · subst hceq
        exact hact cart0 (findCart_mem hc)
      · exact hact c hcs

theorem daoUpdateQuantity_nodup (s : State) (cid pid0 q : Nat)
    (hnd : ∀ c ∈ s.carts, (c.products.map (fun it => it.product)).Nodup) :
    ∀ c ∈ (CartDAO.updateProductQuantity s cid pid0 q).carts,
      (c.products.map (fun it => it.product)).Nodup := by
  unfold CartDAO.updateProductQuantity
  cases hc : findCart s.carts cid with
  | none => exact hnd
  | some cart0 =>
    try dsimp only
    cases hl : findLine cart0.products pid0 with
    | none => exact hnd
    | some it0 =>
      intro c hmem
      rcases mem_replaceCart hmem with hceq | hcs
      · subst hceq
        dsimp only
        rw [setLineQuantity_map_product]
        exact hnd cart0 (findCart_mem hc)
      · exact hnd c hcs

theorem daoUpdateQuantity_reserved (s : State) (cid pid0 newQ : Nat) (pid : Nat)
    (hact : ∀ c ∈ s.carts, c.status = CartStatus.active)
    (cart0 : Cart) (item : LineItem)
    (hc : findCart s.carts cid = some cart0)
    (hl : findLine cart0.products pid0 = some item) :
    reservedSum (CartDAO.updateProductQuantity s cid pid0 newQ).carts pid
        + (if pid0 = pid then item.quantity else 0)
      = reservedSum s.carts pid + (if pid0 = pid then newQ else 0) := by
  unfold CartDAO.updateProductQuantity
  rw [hc]
  dsimp only
  rw [hl]
  dsimp only
  have hst0 : cart0.status = CartStatus.active := hact cart0 (findCart_mem hc)
  have hrepl := reservedSum_replaceCart s.carts cid { cart0 with products := setLineQuantity cart0.products pid0 newQ, totalPrice := calcTotal (setLineQuantity cart0.products pid0 newQ) } pid hc
  simp only [activeReserved, hst0, eq_self_iff_true, if_true] at hrepl
  have hset := linesReserved_setLineQuantity cart0.products pid0 newQ pid hl
  rw [hst0]
  omega

theorem daoRemoveProduct_products (s : State) (cid pid0 : Nat) :
    (CartDAO.removeProduct s cid pid0).products = s.products := by
  unfold CartDAO.removeProduct
  cases findCart s.carts cid <;> rfl

theorem daoRemoveProduct_active (s : State) (cid pid0 : Nat)
    (hact : ∀ c ∈ s.carts, c.status = CartStatus.active) :
    ∀ c ∈ (CartDAO.removeProduct s cid pid0).carts,
      c.status = CartStatus.active := by
  unfold CartDAO.removeProduct
  cases hc : findCart s.carts cid with
  | none => exact hact
  | some cart0 =>
    intro c hmem
    rcases mem_replaceCart hmem with hceq | hcs
    · subst hceq
      exact hact cart0 (findCart_mem hc)
    · exact hact c hcs

theorem daoRemoveProduct_nodup (s : State) (cid pid0 : Nat)
    (hnd : ∀ c ∈ s.carts, (c.products.map (fun it => it.product)).Nodup) :
    ∀ c ∈ (CartDAO.removeProduct s cid pid0).carts,
      (c.products.map (fun it => it.product)).Nodup := by
  unfold CartDAO.removeProduct
  cases hc : findCart s.carts cid with
  | none => exact hnd
  | some cart0 =>
    intro c hmem
    rcases mem_replaceCart hmem with hceq | hcs
    · subst hceq
      dsimp only
      have hsub : ((cart0.products.filter (fun it => !(it.product == pid0))).map (fun it => it.product)).Sublist (cart0.products.map (fun it => it.product)) :=
        (List.filter_sublist _).map _
      exact (hnd cart0 (findCart_mem hc)).sublist hsub
    · exact hnd c hcs

theorem daoRemoveProduct_reserved (s : State) (cid pid0 : Nat) (pid : Nat)
    (hact : ∀ c ∈ s.carts, c.status = CartStatus.active)
    (cart0 : Cart) (hc : findCart s.carts cid = some cart0) :
    reservedSum (CartDAO.removeProduct s cid pid0).carts pid
        + (if pid0 = pid then linesReserved cart0.products pid0 else 0)
      = reservedSum s.carts pid := by
  unfold CartDAO.removeProduct
  rw [hc]
  dsimp only
  have hst0 : cart0.status = CartStatus.active := hact cart0 (findCart_mem hc)
  have hrepl := reservedSum_replaceCart s.carts cid { cart0 with products := cart0.products.filter (fun it => !(it.product == pid0)), totalPrice := calcTotal (cart0.products.filter (fun it => !(it.product == pid0))) } pid hc
  simp only [activeReserved, hst0, eq_self_iff_true, if_true] at hrepl
  have hrem := linesReserved_removeAll cart0.products pid0 pid
  rw [hst0]
  by_cases hpp : pid0 = pid
  · subst hpp
    simp only [eq_self_iff_true, if_true] at hrem ⊢
    omega
  · simp only [if_neg hpp] at hrem ⊢
    omega

theorem daoClearCart_products (s : State) (cid : Nat) :
    (CartDAO.clearCart s cid).products = s.products := by
  unfold CartDAO.clearCart
  cases findCart s.carts cid <;> rfl

theorem daoClearCart_active (s : State) (cid : Nat)
    (hact : ∀ c ∈ s.carts, c.status = CartStatus.active) :
    ∀ c ∈ (CartDAO.clearCart s cid).carts, c.status = CartStatus.active := by
  unfold CartDAO.clearCart
  cases hc : findCart s.carts cid with
  | none => exact hact
  | some cart0 =>
    intro c hmem
    rcases mem_replaceCart hmem with hceq | hcs
    · subst hceq
      exact hact cart0 (findCart_mem hc)
    · exact hact c hcs

theorem daoClearCart_nodup (s : State) (cid : Nat)
    (hnd : ∀ c ∈ s.carts, (c.products.map (fun it => it.product)).Nodup) :
    ∀ c ∈ (CartDAO.clearCart s cid).carts,
      (c.products.map (fun it => it.product)).Nodup := by
  unfold CartDAO.clearCart
  cases hc : findCart s.carts cid with
  | none => exact hnd
  | some cart0 =>
    intro c hmem
    rcases mem_replaceCart hmem with hceq | hcs
    · subst hceq
      simp
    · exact hnd c hcs

theorem daoClearCart_reserved (s : State) (cid : Nat) (pid : Nat)
    (hact : ∀ c ∈ s.carts, c.status = CartStatus.active)
    (cart0 : Cart) (hc : findCart s.carts cid = some cart0) :
    reservedSum (CartDAO.clearCart s cid).carts pid
        + linesReserved cart0.products pid
      = reservedSum s.carts pid := by
  unfold CartDAO.clearCart
  rw [hc]
  dsimp only
  have hst0 : cart0.status = CartStatus.active := hact cart0 (findCart_mem hc)
  have hrepl := reservedSum_replaceCart s.carts cid { cart0 with products := [], totalPrice := 0 } pid hc
  simp only [activeReserved, hst0, eq_self_iff_true, if_true, linesReserved_nil] at hrepl
  rw [hst0]
  omega

/-- Inductive invariant for stock conservation of one product: all carts
active, line product ids distinct within each cart, the product resolves,
and stock plus total active reservation is the constant. -/
def ConsInv (pid : Nat) (total : Int) (s : State) : Prop :=
  (∀ c ∈ s.carts, c.status = CartStatus.active) ∧
  (∀ c ∈ s.carts, (c.products.map (fun it => it.product)).Nodup) ∧
  (findProduct s.products pid).isSome = true ∧
  stockOf s.products pid + (reservedSum s.carts pid : Int) = total

theorem isSome_returnAllStock (items : List LineItem) (ps : List Product) (pid : Nat) :
    (findProduct (returnAllStock ps items) pid).isSome
      = (findProduct ps pid).isSome := by
  induction items generalizing ps with
  | nil => rfl
  | cons it rest ih =>
    unfold returnAllStock
    rw [ih]
    exact isSome_incrementStock ps it.product pid (it.quantity : Int)

theorem stockOf_returnAllStock (items : List LineItem) (ps : List Product) (pid : Nat)
    (hps : (findProduct ps pid).isSome = true) :
    stockOf (returnAllStock ps items) pid
      = stockOf ps pid + (linesReserved items pid : Int) := by
  induction items generalizing ps with
  | nil =>
    rw [linesReserved_nil]
    simp [returnAllStock]
  | cons it rest ih =>
    unfold returnAllStock
    rw [ih _ (by rw [isSome_incrementStock]; exact hps)]
    rw [stockOf_incrementStock, linesReserved_cons]
    by_cases hpp : it.product = pid
    · rw [if_pos ⟨hpp, hps⟩, if_pos hpp]
      push_cast
      ring
    · rw [if_neg (fun hcc => hpp hcc.1), if_neg hpp]
      simp

theorem consInv_decAdd (pid : Nat) (total : Int) (t : State) (cid pid0 q : Nat)
    (price : Int)
    (hact : ∀ c ∈ t.carts, c.status = CartStatus.active)
    (hnd : ∀ c ∈ t.carts, (c.products.map (fun it => it.product)).Nodup)
    (hps : (findProduct t.products pid).isSome = true)
    (hsome : (findCart t.carts cid).isSome = true)
    (htot : stockOf t.products pid + (reservedSum t.carts pid : Int) = total) :
    ConsInv pid total
      (CartDAO.addProduct { t with products := ProductDAO.decrementStock t.products pid0 (q : Int) } cid pid0 q price) := by
  obtain ⟨cart0, hc0⟩ := Option.isSome_iff_exists.mp hsome
  have hc0' : findCart ({ t with products := ProductDAO.decrementStock t.products pid0 (q : Int) } : State).carts cid = some cart0 := hc0
  refine ⟨daoAddProduct_active _ _ _ _ _ hact, daoAddProduct_nodup _ _ _ _ _ hnd, ?_, ?_⟩
  · rw [daoAddProduct_products]
    show (findProduct (ProductDAO.decrementStock t.products pid0 (q : Int)) pid).isSome = true
    rw [isSome_decrementStock]
    exact hps
  · have hres := daoAddProduct_reserved
      { t with products := ProductDAO.decrementStock t.products pid0 (q : Int) }
      cid pid0 q price pid hact cart0 hc0'
    dsimp only at hres
    rw [daoAddProduct_products, hres]
    show stockOf (ProductDAO.decrementStock t.products pid0 (q : Int)) pid + _ = total
    rw [stockOf_decrementStock]
    by_cases hpp : pid0 = pid
    · rw [if_pos ⟨hpp, hps⟩, if_pos hpp]
      push_cast
      omega
    · rw [if_neg (fun hcc => hpp hcc.1), if_neg hpp]
      push_cast
      omega

theorem consInv_add (pid : Nat) (total : Int) (s : State) (uid pid0 q : Nat)
    (hI : ConsInv pid total s) (s1 : State)
    (hok : CartRepository.addProduct s uid pid0 q = Except.ok s1) :
    ConsInv pid total s1 := by
  obtain ⟨hact, hnd, hps, htot⟩ := hI
  unfold CartRepository.addProduct at hok
  cases hp : findProduct s.products pid0 with
  | none => rw [hp] at hok; cases hok
  | some product =>
    rw [hp] at hok
    dsimp only at hok
    by_cases h1 : ProductRepository.hasStock s.products pid0 ((q : Nat) : Int) = true
    case neg => rw [if_neg h1] at hok; cases hok
    case pos =>
    rw [if_pos h1] at hok
    cases hf : findActiveCart s.carts uid with
    | some cart =>
      rw [hf] at hok
      dsimp only [Option.getD] at hok
      have hmem : cart ∈ s.carts := findActiveCart_mem hf
      have hsome : (findCart s.carts cart.id).isSome = true := findCart_isSome_of_mem hmem
      rw [findLinePopulated_eq_none] at hok
      try dsimp only at hok
      have hs := Except.ok.inj hok
      subst hs
      exact consInv_decAdd pid total s cart.id pid0 q product.price hact hnd hps hsome htot
    | none =>
      rw [hf] at hok
      dsimp only [Option.getD] at hok
      rw [findLinePopulated_eq_none] at hok
      try dsimp only at hok
      have hs := Except.ok.inj hok
      subst hs
      have hactE : ∀ c ∈ s.carts ++ [({ id := s.nextCartId, user := uid, products := [], totalPrice := 0, status := CartStatus.active } : Cart)], c.status = CartStatus.active := by
        intro c hmemc
        rcases List.mem_append.mp hmemc with hcs | hcnew
        · exact hact c hcs
        · rw [List.mem_singleton.mp hcnew]
      have hndE : ∀ c ∈ s.carts ++ [({ id := s.nextCartId, user := uid, products := [], totalPrice := 0, status := CartStatus.active } : Cart)], (c.products.map (fun it => it.product)).Nodup := by
        intro c hmemc
        rcases List.mem_append.mp hmemc with hcs | hcnew
        · exact hnd c hcs
        · rw [List.mem_singleton.mp hcnew]
          simp
      have hsomeE : (findCart (s.carts ++ [({ id := s.nextCartId, user := uid, products := [], totalPrice := 0, status := CartStatus.active } : Cart)]) s.nextCartId).isSome = true := by
        have hmemf : ({ id := s.nextCartId, user := uid, products := [], totalPrice := 0, status := CartStatus.active } : Cart) ∈ s.carts ++ [({ id := s.nextCartId, user := uid, products := [], totalPrice := 0, status := CartStatus.active } : Cart)] :=
          List.mem_append.mpr (Or.inr (List.mem_singleton.mpr rfl))
        exact findCart_isSome_of_mem hmemf
      have htotE : stockOf s.products pid + (reservedSum (s.carts ++ [({ id := s.nextCartId, user := uid, products := [], totalPrice := 0, status := CartStatus.active } : Cart)]) pid : Int) = total := by
        rw [reservedSum_append, reservedSum_cons, reservedSum_nil]
        show stockOf s.products pid + ((reservedSum s.carts pid + (activeReserved { id := s.nextCartId, user := uid, products := [], totalPrice := 0, status := CartStatus.active } pid + 0) : Nat) : Int) = total
        rw [show activeReserved { id := s.nextCartId, user := uid, products := [], totalPrice := 0, status := CartStatus.active } pid = 0 from by simp [activeReserved, linesReserved_nil]]
        push_cast
        omega
      exact consInv_decAdd pid total
        { s with carts := s.carts ++ [{ id := s.nextCartId, user := uid, products := [], totalPrice := 0, status := CartStatus.active }], nextCartId := s.nextCartId + 1 }
        s.nextCartId pid0 q product.price hactE hndE hps hsomeE htotE

theorem consInv_update (pid : Nat) (total : Int) (s : State) (cid pid0 newQ : Nat)
    (hI : ConsInv pid total s) (s1 : State)
    (hok : CartRepository.updateProductQuantity s cid pid0 newQ = Except.ok s1) :
    ConsInv pid total s1 := by
  obtain ⟨hact, hnd, hps, htot⟩ := hI
  unfold CartRepository.updateProductQuantity at hok
  cases hc : findCart s.carts cid with
  | none => rw [hc] at hok; cases hok
  | some cart =>
    rw [hc] at hok
    dsimp only at hok
    cases hl : findLine cart.products pid0 with
    | none => rw [hl] at hok; cases hok
    | some item =>
      rw [hl] at hok
      dsimp only at hok
      by_cases h1 : (0 : Int) < (newQ : Int) - (item.quantity : Int)
      · rw [if_pos h1] at hok
        by_cases h2 : ProductRepository.hasStock s.products pid0
            ((newQ : Int) - (item.quantity : Int)) = true
        case neg => rw [if_neg h2] at hok; cases hok
        case pos =>
        rw [if_pos h2] at hok
        have hs := Except.ok.inj hok
        subst hs
        have hc2 : findCart ({ s with products := ProductDAO.decrementStock s.products pid0 ((newQ : Int) - (item.quantity : Int)) } : State).carts cid = some cart := hc
        refine ⟨daoUpdateQuantity_active _ _ _ _ hact, daoUpdateQuantity_nodup _ _ _ _ hnd, ?_, ?_⟩
        · rw [daoUpdateQuantity_products]
          show (findProduct (ProductDAO.decrementStock s.products pid0 ((newQ : Int) - (item.quantity : Int))) pid).isSome = true
          rw [isSome_decrementStock]
          exact hps
        · have hres := daoUpdateQuantity_reserved
            { s with products := ProductDAO.decrementStock s.products pid0 ((newQ : Int) - (item.quantity : Int)) }
            cid pid0 newQ pid hact cart item hc2 hl
          dsimp only at hres
          rw [daoUpdateQuantity_products]
          show stockOf (ProductDAO.decrementStock s.products pid0 ((newQ : Int) - (item.quantity : Int))) pid + _ = total
          rw [stockOf_decrementStock]
          by_cases hpp : pid0 = pid
          · rw [if_pos ⟨hpp, hps⟩]
            rw [if_pos hpp, if_pos hpp] at hres
            omega
          · rw [if_neg (fun hcc => hpp hcc.1)]
            rw [if_neg hpp, if_neg hpp] at hres
            omega
      · rw [if_neg h1] at hok
        by_cases h3 : (newQ : Int) - (item.quantity : Int) < 0
        · rw [if_pos h3] at hok
          have hs := Except.ok.inj hok
          subst hs
          have hc2 : findCart ({ s with products := ProductDAO.incrementStock s.products pid0 (-((newQ : Int) - (item.quantity : Int))) } : State).carts cid = some cart := hc
          refine ⟨daoUpdateQuantity_active _ _ _ _ hact, daoUpdateQuantity_nodup _ _ _ _ hnd, ?_, ?_⟩
          · rw [daoUpdateQuantity_products]
            show (findProduct (ProductDAO.incrementStock s.products pid0 (-((newQ : Int) - (item.quantity : Int)))) pid).isSome = true
            rw [isSome_incrementStock]
            exact hps
          · have hres := daoUpdateQuantity_reserved
              { s with products := ProductDAO.incrementStock s.products pid0 (-((newQ : Int) - (item.quantity : Int))) }
              cid pid0 newQ pid hact cart item hc2 hl
            dsimp only at hres
            rw [daoUpdateQuantity_products]
            show stockOf (ProductDAO.incrementStock s.products pid0 (-((newQ : Int) - (item.quantity : Int)))) pid + _ = total
            rw [stockOf_incrementStock]
            by_cases hpp : pid0 = pid
            · rw [if_pos ⟨hpp, hps⟩]
              rw [if_pos hpp, if_pos hpp] at hres
              omega
            · rw [if_neg (fun hcc => hpp hcc.1)]
              rw [if_neg hpp, if_neg hpp] at hres
              omega
        · rw [if_neg h3] at hok
          have heq : newQ = item.quantity := by omega
          subst heq
          have hs := Except.ok.inj hok
          subst hs
          refine ⟨daoUpdateQuantity_active _ _ _ _ hact, daoUpdateQuantity_nodup _ _ _ _ hnd, ?_, ?_⟩
          · rw [daoUpdateQuantity_products]
            exact hps
          · have hres := daoUpdateQuantity_reserved s cid pid0 item.quantity pid hact cart item hc hl
            rw [daoUpdateQuantity_products]
            by_cases hpp : pid0 = pid
            · rw [if_pos hpp] at hres
              omega
            · rw [if_neg hpp] at hres
              omega

theorem consInv_remove (pid : Nat) (total : Int) (s : State) (cid pid0 : Nat)
    (hI : ConsInv pid total s) (s1 : State)
    (hok : CartRepository.removeProduct s cid pid0 = Except.ok s1) :
    ConsInv pid total s1 := by
  obtain ⟨hact, hnd, hps, htot⟩ := hI
  unfold CartRepository.removeProduct at hok
  cases hc : findCart s.carts cid with
  | none => rw [hc] at hok; cases hok
  | some cart =>
    rw [hc] at hok
    dsimp only at hok
    have hndc : (cart.products.map (fun it => it.product)).Nodup :=
      hnd cart (findCart_mem hc)
    cases hl : findLine cart.products pid0 with
    | some item =>
      rw [hl] at hok
      dsimp only at hok
      have hs := Except.ok.inj hok
      subst hs
      have hc2 : findCart ({ s with products := ProductDAO.incrementStock s.products pid0 (item.quantity : Int) } : State).carts cid = some cart := hc
      have hlr : linesReserved cart.products pid0 = item.quantity :=
        linesReserved_of_nodup cart.products pid0 hndc hl
      refine ⟨daoRemoveProduct_active _ _ _ hact, daoRemoveProduct_nodup _ _ _ hnd, ?_, ?_⟩
      · rw [daoRemoveProduct_products]
        show (findProduct (ProductDAO.incrementStock s.products pid0 (item.quantity : Int)) pid).isSome = true
        rw [isSome_incrementStock]
        exact hps
      · have hres := daoRemoveProduct_reserved
          { s with products := ProductDAO.incrementStock s.products pid0 (item.quantity : Int) }
          cid pid0 pid hact cart hc2
        dsimp only at hres
        rw [daoRemoveProduct_products]
        show stockOf (ProductDAO.incrementStock s.products pid0 (item.quantity : Int)) pid + _ = total
        rw [stockOf_incrementStock]
        by_cases hpp : pid0 = pid
        · rw [if_pos ⟨hpp, hps⟩]
          rw [if_pos hpp, hlr] at hres
          omega
        · rw [if_neg (fun hcc => hpp hcc.1)]
          rw [if_neg hpp] at hres
          omega
    | none =>
      rw [hl] at hok
      dsimp only at hok
      have hs := Except.ok.inj hok
      subst hs
      have hlr : linesReserved cart.products pid0 = 0 :=
        linesReserved_eq_zero_of_find_none cart.products pid0 hl
      refine ⟨daoRemoveProduct_active _ _ _ hact, daoRemoveProduct_nodup _ _ _ hnd, ?_, ?_⟩
      · rw [daoRemoveProduct_products]
        exact hps
      · have hres := daoRemoveProduct_reserved s cid pid0 pid hact cart hc
        rw [daoRemoveProduct_products]
        by_cases hpp : pid0 = pid
        · rw [if_pos hpp, hlr] at hres
          omega
        · rw [if_neg hpp] at hres
          omega

theorem consInv_clear (pid : Nat) (total : Int) (s : State) (cid : Nat)
    (hI : ConsInv pid total s) (s1 : State)
    (hok : CartRepository.clearCart s cid = Except.ok s1) :
    ConsInv pid total s1 := by
  obtain ⟨hact, hnd, hps, htot⟩ := hI
  unfold CartRepository.clearCart at hok
  cases hc : findCart s.carts cid with
  | none => rw [hc] at hok; cases hok
  | some cart =>
    rw [hc] at hok
    dsimp only at hok
    have hs := Except.ok.inj hok
    subst hs
    have hc2 : findCart ({ s with products := returnAllStock s.products cart.products } : State).carts cid = some cart := hc
    refine ⟨daoClearCart_active _ _ hact, daoClearCart_nodup _ _ hnd, ?_, ?_⟩
    · rw [daoClearCart_products]
      show (findProduct (returnAllStock s.products cart.products) pid).isSome = true
      rw [isSome_returnAllStock]
      exact hps
    · have hres := daoClearCart_reserved
        { s with products := returnAllStock s.products cart.products }
        cid pid hact cart hc2
      dsimp only at hres
      rw [daoClearCart_products]
      show stockOf (returnAllStock s.products cart.products) pid + _ = total
      rw [stockOf_returnAllStock cart.products s.products pid hps]
      omega

theorem consInv_applyOp (pid : Nat) (total : Int) (s : State) (op : CartOp)
    (hI : ConsInv pid total s) : ConsInv pid total (applyOp s op) := by
  cases op with
  | add uid pid0 q =>
    unfold applyOp
    dsimp only
    cases hok : CartRepository.addProduct s uid pid0 q with
    | ok s1 => exact consInv_add pid total s uid pid0 q hI s1 hok
    | error e => exact hI
  | update cid pid0 q =>
    unfold applyOp
    dsimp only
    cases hok : CartRepository.updateProductQuantity s cid pid0 q with
    | ok s1 => exact consInv_update pid total s cid pid0 q hI s1 hok
    | error e => exact hI
  | remove cid pid0 =>
    unfold applyOp
    dsimp only
    cases hok : CartRepository.removeProduct s cid pid0 with
    | ok s1 => exact consInv_remove pid total s cid pid0 hI s1 hok
    | error e => exact hI
  | clear cid =>
    unfold applyOp
    dsimp only
    cases hok : CartRepository.clearCart s cid with
    | ok s1 => exact consInv_clear pid total s cid hI s1 hok
    | error e => exact hI

theorem consInv_runOps (pid : Nat) (total : Int) (ops : List CartOp) (s : State)
    (hI : ConsInv pid total s) : ConsInv pid total (runOps s ops) := by
  induction ops generalizing s with
  | nil => exact hI
  | cons op rest ih =>
    unfold runOps
    rw [List.foldl_cons]
    exact ih (applyOp s op) (consInv_applyOp pid total s op hI)

/-- Claim C4: for any product that exists before cart activity begins, and
any sequence of addProduct, updateProductQuantity, removeProduct and
clearCart operations (no purchase) starting with no carts, the product
stock plus the quantities reserved by all active-cart lines for that
product equals the initial stock. -/
theorem stock_conservation (ops : List CartOp) (s : State) (pid : Nat)
    (hcarts : s.carts = [])
    (hp : (findProduct s.products pid).isSome = true) :
    stockOf (runOps s ops).products pid + (reservedFor (runOps s ops) pid : Int)
      = stockOf s.products pid := by
  have hI : ConsInv pid (stockOf s.products pid) s := by
    refine ⟨?_, ?_, hp, ?_⟩
    · rw [hcarts]
      intro c hmem
      cases hmem
    · rw [hcarts]
      intro c hmem
      cases hmem
    · rw [hcarts, reservedSum_nil]
      simp
  have hF := consInv_runOps pid (stockOf s.products pid) ops s hI
  unfold reservedFor
  exact hF.2.2.2

/-- Witness for the C4 theorem: stock 5, add 3 to a fresh cart, raise the
line to 4, remove it, clear the cart — stock plus reservation stays 5. -/
theorem stock_conservation_witness :
    stockOf (runOps
        { products := [{ id := 1, title := "P", price := 10, stock := 5 }], carts := [], nextCartId := 1 }
        [CartOp.add 7 1 3, CartOp.update 1 1 4, CartOp.remove 1 1, CartOp.clear 1]).products 1
      + (reservedFor (runOps
        { products := [{ id := 1, title := "P", price := 10, stock := 5 }], carts := [], nextCartId := 1 }
        [CartOp.add 7 1 3, CartOp.update 1 1 4, CartOp.remove 1 1, CartOp.clear 1]) 1 : Int)
      = stockOf [{ id := 1, title := "P", price := 10, stock := 5 }] 1 :=
  stock_conservation [CartOp.add 7 1 3, CartOp.update 1 1 4, CartOp.remove 1 1, CartOp.clear 1]
    { products := [{ id := 1, title := "P", price := 10, stock := 5 }], carts := [], nextCartId := 1 }
    1 rfl (by decide)
